import Mathlib

/-!
# Verification of `spotdl/download/downloader.py`

A shallow embedding of the batch download orchestrator of
`spotdl/download/downloader.py` (class `Downloader`): the per-song pipeline
`search_and_download`, the ordered-fallback resolvers `search` and
`search_lyrics`, the batch driver `download_multiple_songs`, and the
semaphore-bounded scheduler used by `pool_download`.

External collaborators (providers, ffmpeg, the tag embedder, the filesystem)
are represented by an `Env` record of oracles; the mutable state of a
`Downloader` instance (`self.known_songs`, `self.errors`, the filesystem) is
threaded explicitly, and every externally visible action is recorded in a
trace of `Effect`s.
-/

namespace SpotDL

/-- The fields of `spotdl.types.song.Song` that the downloader reads or
writes: the identity URL (primary key), the display metadata, and the three
attributes the pipeline mutates (`lyrics`, `download_url`) or fills in by
re-hydration (`name`). -/
structure Song where
  url : String
  name : Option String
  artists : List String
  downloadUrl : Option String
  lyrics : Option String
deriving DecidableEq, Repr

/-- Modelled from the spec: the Track "display name" used in log and error
messages (`Song.display_name` lives in `spotdl/types/song.py`, outside the
embedded source). Its exact value is irrelevant to every claim. -/
def Song.displayName (s : Song) : String :=
  String.intercalate ", " s.artists ++ " - " ++ s.name.getD ""

/-- The four values of the `overwrite` setting (downloader.py lines 432, 445,
480: `"skip"`, `"force"`, `"metadata"`, with any other value — canonically
`"overwrite"` — falling through to a fresh download). -/
inductive Overwrite where
  | skip
  | force
  | metadata
  | overwrite
deriving DecidableEq, Repr

/-- The `Downloader.settings` fields consulted by the embedded code paths. -/
structure Settings where
  overwrite : Overwrite
  format : String
  threads : Nat
  restrict : Bool
  fetchAlbums : Bool
  archiveEnabled : Bool
  sponsorBlock : Bool
  bitrate : Option String
  m3u : Option String
  saveFile : Option String
deriving DecidableEq, Repr

/-- Externally visible actions of one batch, in program order.  `hydrateFetch`,
`lyricsQuery i`, `audioQuery i` and `download` are network calls;
`mkdirParent`, `fsDelete`, `fsMove`, `fsWrite`, `embed` and `archiveSave`
are filesystem writes; the `notify*` constructors are progress events. -/
inductive Effect where
  | hydrateFetch (url : String)
  | lyricsQuery (providerIdx : Nat)
  | audioQuery (providerIdx : Nat)
  | download (url : String)
  | mkdirParent (path : String)
  | fsDelete (path : String)
  | fsMove (src : String) (dst : String)
  | fsWrite (path : String)
  | embed (path : String)
  | archiveSave
  | notifySkip
  | notifyDownloadComplete
  | notifyConversionComplete
  | notifyComplete
  | notifyError
deriving DecidableEq, Repr

/-- Network calls: metadata hydration (`reinit_song`), lyrics and audio
provider queries, and the yt-dlp stream download. -/
def Effect.isNetwork : Effect → Bool
  | .hydrateFetch _ => true
  | .lyricsQuery _ => true
  | .audioQuery _ => true
  | .download _ => true
  | _ => false

/-- Filesystem writes (creations, deletions, moves, tag embedding, the
ledger save). -/
def Effect.isFsWrite : Effect → Bool
  | .mkdirParent _ => true
  | .fsDelete _ => true
  | .fsMove _ _ => true
  | .fsWrite _ => true
  | .embed _ => true
  | .archiveSave => true
  | _ => false

/-- The stream download proper (`get_download_metadata(download_url,
download=True)`, line 551). -/
def Effect.isDownload : Effect → Bool
  | .download _ => true
  | _ => false

/-- A file move (`Path.replace`, line 508). -/
def Effect.isMove : Effect → Bool
  | .fsMove _ _ => true
  | _ => false

/-- A file deletion (`Path.unlink`). -/
def Effect.isDelete : Effect → Bool
  | .fsDelete _ => true
  | _ => false

/-- The exception classes raised inside the per-song pipeline:
`LookupError` (line 349), `DownloaderError` (lines 566, 600),
`FFmpegError` (line 625), `MetadataError` (line 674), and the bare
`OSError`s of unguarded filesystem calls (lines 623, 669). -/
inductive PipelineError where
  | lookupError (msg : String)
  | downloaderError (msg : String)
  | ffmpegError (msg : String)
  | metadataError (msg : String)
  | osError (msg : String)
deriving DecidableEq, Repr

/-- The Python exception class name, as interpolated by
`exception.__class__.__name__` at line 699. -/
def PipelineError.className : PipelineError → String
  | .lookupError _ => "LookupError"
  | .downloaderError _ => "DownloaderError"
  | .ffmpegError _ => "FFmpegError"
  | .metadataError _ => "MetadataError"
  | .osError _ => "OSError"

/-- The exception message. -/
def PipelineError.message : PipelineError → String
  | .lookupError m => m
  | .downloaderError m => m
  | .ffmpegError m => m
  | .metadataError m => m
  | .osError m => m

/-- The Error Record appended to `self.errors` at lines 698-700:
`f"{song.url} - {exception.__class__.__name__}: {exception}"`.
(Written right-associated so that the track identity is literally the
leading segment of the record.) -/
def errorRecord (url : String) (e : PipelineError) : String :=
  url ++ (" - " ++ (e.className ++ (": " ++ e.message)))

/-- `Downloader.search` (lines 331-349): iterate `self.audio_providers` in
configured order; return the first provider's non-empty URL; raise
`LookupError` when every provider comes back empty.  The provider answers
for the one query this song makes are given as `answers` (index = position
in the configured provider list); the returned trace records which providers
were actually invoked, in order. -/
def search (dn : String) : List (Option String) → Nat →
    List Effect × Except PipelineError String
  | [], _ =>
      ([], Except.error (PipelineError.lookupError
        ("No results found for song: " ++ dn)))
  | some url :: _, start => ([Effect.audioQuery start], Except.ok url)
  | none :: rest, start =>
      let r := search dn rest (start + 1)
      (Effect.audioQuery start :: r.1, r.2)

/-- `Downloader.search_lyrics` (lines 351-377): iterate
`self.lyrics_providers` in order, return the first non-empty lyrics text,
or `None` (no exception) when every provider comes back empty. -/
def search_lyrics : List (Option String) → Nat → List Effect × Option String
  | [], _ => ([], none)
  | some l :: _, start => ([Effect.lyricsQuery start], some l)
  | none :: rest, start =>
      let r := search_lyrics rest (start + 1)
      (Effect.lyricsQuery start :: r.1, r.2)

/-- How many providers the fallback loop consults: every provider up to and
including the first one that answers. -/
def queriedCount : List (Option String) → Nat
  | [] => 0
  | some _ :: _ => 1
  | none :: rest => queriedCount rest + 1

/-- The fields of the yt-dlp `download_info` dict that the code reads:
`id` and `ext` (temp file name, line 555) and `abr` (auto bitrate,
line 577). -/
structure DownloadInfo where
  infoId : String
  ext : String
  abr : Nat
deriving DecidableEq, Repr

/-- The external collaborators of one per-song pipeline run, as deterministic
oracles: metadata hydration (`reinit_song`), path construction
(`create_file_name`, `restrict_filename`, `Path.absolute`,
`Path.with_suffix`, `Path.stat().st_mtime`), whether an `unlink` of a given
path succeeds, the per-provider answers for this song's one lyrics query and
one source query, the yt-dlp result, the ffmpeg outcome, and the tag
embedder. -/
structure Env where
  hydrate : Song → Song
  fileName : Song → String
  restrictName : String → String
  abspath : String → String
  mtime : String → Nat
  removable : String → Bool
  lyricsAnswers : List (Option String)
  audioAnswers : List (Option String)
  downloadMeta : Except String DownloadInfo
  tempFolder : String
  withSuffix : String → String → String
  convertSuccess : Bool
  convertDiag : Option (List (String × String))
  convertCreatesOutput : Bool
  reportPath : String
  sponsorChapters : Nat
  sponsorFilesToDelete : List String
  embedOk : Bool

/-- The mutable state a pipeline run reads and writes: the filesystem
(as the set of existing files), `self.known_songs` (the Duplicate Index,
a dict from track URL to known paths) and `self.errors`. -/
structure DlState where
  fs : List String
  knownSongs : List (String × List String)
  errors : List String
deriving DecidableEq, Repr

/-- Python `self.known_songs.get(song.url, [])` (read-only use, line 415). -/
def dictGetD (d : List (String × List String)) (k : String) : List String :=
  (d.lookup k).getD []

/-- Line 681, `self.known_songs.get(song.url, []).append(output_file)`:
Python `dict.get` returns the *stored* list when the key is present — the
append then mutates the dict's value — but returns the fresh default `[]`
when the key is absent, so the append mutates a temporary and the dict is
left unchanged. -/
def knownSongsAppend (d : List (String × List String)) (k v : String) :
    List (String × List String) :=
  if (d.lookup k).isSome then
    d.map (fun kv => if kv.1 = k then (kv.1, kv.2 ++ [v]) else kv)
  else d

/-- Lines 397-398: `if song.name is None and song.url: song =
reinit_song(song, ...)`. -/
def hydrated (env : Env) (s : Song) : Song :=
  if s.name.isNone && (s.url != "") then env.hydrate s else s

/-- The network effect of the hydration step, when it runs. -/
def hydrateEffects (s : Song) : List Effect :=
  if s.name.isNone && (s.url != "") then [Effect.hydrateFetch s.url] else []

/-- Lines 404-411: `create_file_name(...)` then `restrict_filename` when the
`restrict` setting is on. -/
def outputFileOf (settings : Settings) (env : Env) (s : Song) : String :=
  if settings.restrict then env.restrictName (env.fileName s)
  else env.fileName s

/-- Lines 415-423: the duplicate paths for this song — the Duplicate Index
entry for `song.url`, minus any path that resolves to the output file itself
and minus any path that no longer exists. -/
def dupPathsOf (settings : Settings) (env : Env) (st : DlState) (s : Song) :
    List String :=
  (dictGetD st.knownSongs s.url).filter
    (fun p => (env.abspath p != env.abspath (outputFileOf settings env s))
      && st.fs.contains p)

/-- One best-effort `unlink` (`try: path.unlink() except (PermissionError,
OSError): log`, lines 455-465 and 496-504): the file disappears when the
filesystem permits; a failure is swallowed. -/
def unlinkBestEffort (env : Env) (fs : List String) (p : String) :
    List String × List Effect :=
  if fs.contains p && env.removable p then (fs.erase p, [Effect.fsDelete p])
  else (fs, [])

/-- Best-effort removal of a list of files, in order. -/
def unlinkAllBestEffort (env : Env) (fs : List String) :
    List String → List String × List Effect
  | [] => (fs, [])
  | p :: rest =>
      let r1 := unlinkBestEffort env fs p
      let r2 := unlinkAllBestEffort env r1.1 rest
      (r2.1, r1.2 ++ r2.2)

/-- Unguarded `Path(file).unlink()` over a list (SponsorBlock cleanup,
lines 668-669): the first failing removal raises, abandoning the rest.
Returns (final filesystem, delete effects, raised error if any). -/
def unlinkAllStrict (env : Env) :
    List String → List String → List String × List Effect × Option String
  | fs, [] => (fs, [], none)
  | fs, p :: rest =>
      if fs.contains p && env.removable p then
        let r := unlinkAllStrict env (fs.erase p) rest
        (r.1, Effect.fsDelete p :: r.2.1, r.2.2)
      else (fs, [], some ("Could not remove file: " ++ p))

/-- Python `max(dup_song_paths, key=lambda p: p.stat().st_mtime)`
(lines 486-489): the first element of maximal modification time. -/
def maxByMtime (env : Env) (ps : List String) : Option String :=
  ps.foldl
    (fun acc p =>
      match acc with
      | none => some p
      | some q => if env.mtime q < env.mtime p then some p else some q)
    none

/-- `Path.replace` (line 508): move `src` onto `dst`, overwriting `dst`. -/
def moveReplace (fs : List String) (src dst : String) : List String :=
  let fs1 := fs.erase src
  if fs1.contains dst then fs1 else fs1 ++ [dst]

/-- Appending to the append-only archive set (`Archive.add`; `Archive` is a
set of URL strings, spec §4.4). -/
def archiveAdd (a : List String) (u : String) : List String :=
  if a.contains u then a else a ++ [u]

/-- The result of the `try:` block of `search_and_download` (lines 529-685):
either the enriched song plus output path, or the raised exception together
with the song object at the time of the raise; plus the filesystem, the
Duplicate Index and the effect trace. -/
abbrev TryResult :=
  Except (Song × PipelineError) (Song × String)
    × List String × List (String × List String) × List Effect

/-- Lines 530-533: use the song's pre-resolved `download_url` if present,
otherwise run the fallback `search`. -/
def acquiredUrl (env : Env) (s : Song) :
    List Effect × Except PipelineError String :=
  match s.downloadUrl with
  | some u => ([], Except.ok u)
  | none => search s.displayName env.audioAnswers 0

/-- Line 555-557: the temp file path, keyed by the provider-assigned
identifier: `temp_folder / f"{download_info['id']}.{download_info['ext']}"`. -/
def tempFileOf (env : Env) (info : DownloadInfo) : String :=
  env.tempFolder ++ "/" ++ info.infoId ++ "." ++ info.ext

/-- Lines 572-579: the bitrate passed to `convert` — `None` for `"disable"`,
derived from the source's average bitrate for `"auto"`/unset, else the
configured value. -/
def bitrateOf (settings : Settings) (info : DownloadInfo) : Option String :=
  match settings.bitrate with
  | some b =>
      if b = "disable" then none
      else if b = "auto" then some (toString info.abr ++ "k")
      else some b
  | none => some (toString info.abr ++ "k")

/-- Lines 630-685: the tail of the `try:` block after a successful
conversion: set `song.download_url`, report conversion, run the optional
SponsorBlock segment removal (whose unguarded `unlink`s may raise), embed
metadata (wrapping any failure as `MetadataError`, lines 671-676), report
completion, and run the line-681 Duplicate Index append. -/
def successTail (settings : Settings) (env : Env) (fs3 : List String)
    (ks : List (String × List String)) (song : Song)
    (outputFile downloadUrl : String) (effs : List Effect) : TryResult :=
  let song2 :=
    if song.downloadUrl.isNone then { song with downloadUrl := some downloadUrl }
    else song
  let effs4 := effs ++ [Effect.notifyConversionComplete]
  let sponsor :=
    if settings.sponsorBlock && decide (0 < env.sponsorChapters) then
      unlinkAllStrict env fs3 env.sponsorFilesToDelete
    else (fs3, [], none)
  match sponsor.2.2 with
  | some msg =>
      (Except.error (song2, PipelineError.osError msg), sponsor.1, ks,
        effs4 ++ sponsor.2.1)
  | none =>
      if env.embedOk then
        (Except.ok (song2, outputFile), sponsor.1,
          knownSongsAppend ks song2.url outputFile,
          effs4 ++ sponsor.2.1 ++ [Effect.embed outputFile, Effect.notifyComplete])
      else
        (Except.error (song2,
            PipelineError.metadataError "Failed to embed metadata to the song"),
          sponsor.1, ks, effs4 ++ sponsor.2.1)

/-- Lines 604-628: the ffmpeg failure branch — when the conversion failed
*and* diagnostic data is present, write the diagnostic report into the
errors directory, delete any (possibly partial) file at the output path
(an unguarded `unlink`, line 623), and raise `FFmpegError` whose message
ends with the report's path; otherwise continue with the success tail. -/
def ffmpegCheck (settings : Settings) (env : Env) (fs3 : List String)
    (ks : List (String × List String)) (song : Song)
    (outputFile downloadUrl : String) (effs : List Effect) : TryResult :=
  if (!env.convertSuccess) && env.convertDiag.isSome then
    let fs4 := if fs3.contains env.reportPath then fs3 else fs3 ++ [env.reportPath]
    let effs3 := effs ++ [Effect.fsWrite env.reportPath]
    let ffErr : PipelineError := PipelineError.ffmpegError
      ("Failed to convert " ++ song.displayName
        ++ (", you can find error here: " ++ env.reportPath))
    if fs4.contains outputFile then
      if env.removable outputFile then
        (Except.error (song, ffErr), fs4.erase outputFile, ks,
          effs3 ++ [Effect.fsDelete outputFile])
      else
        (Except.error (song, PipelineError.osError
            ("Could not remove file: " ++ outputFile)), fs4, ks, effs3)
    else
      (Except.error (song, ffErr), fs4, ks, effs3)
  else successTail settings env fs3 ks song outputFile downloadUrl effs

/-- Lines 591-602: unconditionally remove the temp file after `convert`
returns — succeed or fail; a removal failure escalates to a terminal
`DownloaderError`. -/
def afterConvert (settings : Settings) (env : Env) (fs2 : List String)
    (ks : List (String × List String)) (song : Song)
    (outputFile tempFile downloadUrl : String) (effs : List Effect) : TryResult :=
  if fs2.contains tempFile then
    if env.removable tempFile then
      ffmpegCheck settings env (fs2.erase tempFile) ks song outputFile
        downloadUrl (effs ++ [Effect.fsDelete tempFile])
    else
      (Except.error (song, PipelineError.downloaderError
          ("Could not remove temp file: " ++ tempFile
            ++ ", possible duplicate song")), fs2, ks, effs)
  else ffmpegCheck settings env fs2 ks song outputFile downloadUrl effs

/-- The filesystem after the yt-dlp download: the temp file now exists. -/
def fsAfterDownload (env : Env) (info : DownloadInfo) (fs0 : List String) :
    List String :=
  if fs0.contains (tempFileOf env info) then fs0
  else fs0 ++ [tempFileOf env info]

/-- The filesystem after `convert` returns: a (possibly partial) file exists
at the output path whenever the transcoder produced one. -/
def fsAfterConvert (env : Env) (info : DownloadInfo) (fs0 : List String)
    (outputFile : String) : List String :=
  if env.convertCreatesOutput then
    (if (fsAfterDownload env info fs0).contains outputFile then
      fsAfterDownload env info fs0
    else fsAfterDownload env info fs0 ++ [outputFile])
  else fsAfterDownload env info fs0

/-- The `try:` block of `search_and_download` (lines 529-685): acquire the
source URL (line 530-533), download the stream to the temp file (lines
536-570), convert (lines 581-589), remove the temp file, handle conversion
failure, then the success tail. -/
def tryBody (settings : Settings) (env : Env) (fs0 : List String)
    (ks : List (String × List String)) (song : Song) (outputFile : String) :
    TryResult :=
  let acq := acquiredUrl env song
  match acq.2 with
  | Except.error e => (Except.error (song, e), fs0, ks, acq.1)
  | Except.ok downloadUrl =>
      match env.downloadMeta with
      | Except.error msg =>
          (Except.error (song, PipelineError.downloaderError msg), fs0, ks,
            acq.1 ++ [Effect.download downloadUrl])
      | Except.ok info =>
          afterConvert settings env (fsAfterConvert env info fs0 outputFile)
            ks song outputFile (tempFileOf env info) downloadUrl
            (acq.1
              ++ [Effect.download downloadUrl, Effect.notifyDownloadComplete])

/-- Lines 467-476: fetch lyrics through the fallback resolver and attach
them to the song when found (absence is not an error). -/
def withLyrics (env : Env) (s : Song) : Song :=
  match (search_lyrics env.lyricsAnswers 0).2 with
  | some l => { s with lyrics := some l }
  | none => s

/-- Lines 480-524, the `overwrite == "metadata"` branch: when duplicates
were found, keep the most-recently-modified one, best-effort delete the
others, move the survivor onto `output_file.with_suffix("." + format)`;
then re-embed metadata at the output path and exit with it.  The
`embed_metadata` call here is *outside* the `try:` block, so a failure
escapes `search_and_download` itself. -/
def metadataBranch (settings : Settings) (env : Env) (fs1 : List String)
    (ks : List (String × List String)) (errors : List String) (song1 : Song)
    (outputFile : String) (dups : List String) (effs1 : List Effect) :
    Except PipelineError (Song × Option String) × DlState × List Effect :=
  match maxByMtime env dups with
  | none =>
      if env.embedOk then
        (Except.ok (song1, some outputFile), ⟨fs1, ks, errors⟩,
          effs1 ++ [Effect.embed outputFile, Effect.notifyComplete])
      else
        (Except.error (PipelineError.metadataError "embed_metadata raised"),
          ⟨fs1, ks, errors⟩, effs1)
  | some mrd =>
      let rem := unlinkAllBestEffort env fs1 (dups.filter (fun p => p ≠ mrd))
      let dst := env.withSuffix outputFile ("." ++ settings.format)
      let fs3 := moveReplace rem.1 mrd dst
      let effs2 := effs1 ++ rem.2 ++ [Effect.fsMove mrd dst]
      if env.embedOk then
        (Except.ok (song1, some outputFile), ⟨fs3, ks, errors⟩,
          effs2 ++ [Effect.embed outputFile, Effect.notifyComplete])
      else
        (Except.error (PipelineError.metadataError "embed_metadata raised"),
          ⟨fs3, ks, errors⟩, effs2)

/-- Lines 526-701: create the output directory, run the `try:` block, and
on any raised exception append the Error Record
`f"{song.url} - {kind}: {message}"` to `self.errors`, report an error
event, and return `(song, None)` — the pipeline boundary of spec §4.2. -/
def fallThrough (settings : Settings) (env : Env) (fs1 : List String)
    (ks : List (String × List String)) (errors : List String) (song1 : Song)
    (outputFile : String) (effs1 : List Effect) :
    Except PipelineError (Song × Option String) × DlState × List Effect :=
  match tryBody settings env fs1 ks song1 outputFile with
  | (Except.ok (s2, out), fsF, ksF, effsT) =>
      (Except.ok (s2, some out), ⟨fsF, ksF, errors⟩,
        effs1 ++ [Effect.mkdirParent outputFile] ++ effsT)
  | (Except.error (sE, e), fsF, ksF, effsT) =>
      (Except.ok (sE, none), ⟨fsF, ksF, errors ++ [errorRecord sE.url e]⟩,
        effs1 ++ [Effect.mkdirParent outputFile] ++ effsT
          ++ [Effect.notifyError])

/-- `Downloader.search_and_download` (lines 379-701): the full per-song
pipeline.  Returns `Except.ok (song, optional path)` for a normal exit
(the Download Outcome), or `Except.error` for the one exception that can
escape the pipeline (a failing `embed_metadata` in the un-`try`-guarded
`metadata` overwrite branch), plus the new state and the effect trace. -/
def search_and_download (settings : Settings) (env : Env) (st : DlState)
    (song0 : Song) :
    Except PipelineError (Song × Option String) × DlState × List Effect :=
  let song := hydrated env song0
  let effs0 := hydrateEffects song0
  let outputFile := outputFileOf settings env song
  let dups := dupPathsOf settings env st song
  if (st.fs.contains outputFile = true ∨ dups ≠ [])
      ∧ settings.overwrite = Overwrite.skip then
    (Except.ok (song, none), st, effs0 ++ [Effect.notifySkip])
  else
    let fr :=
      if (st.fs.contains outputFile = true ∨ dups ≠ [])
          ∧ settings.overwrite = Overwrite.force then
        unlinkAllBestEffort env st.fs dups
      else (st.fs, [])
    let song1 := withLyrics env song
    let effs1 := effs0 ++ fr.2 ++ (search_lyrics env.lyricsAnswers 0).1
    if (fr.1.contains outputFile = true ∨ dups ≠ [])
        ∧ settings.overwrite = Overwrite.metadata then
      metadataBranch settings env fr.1 st.knownSongs st.errors song1
        outputFile dups effs1
    else
      fallThrough settings env fr.1 st.knownSongs st.errors song1
        outputFile effs1

/-- The batch-level collaborators of `download_multiple_songs`: the
environment each scheduled song's pipeline runs against, and the album
expansion helpers `Song.from_url(...).album_id` and `songs_from_albums`
(lines 229-245). -/
structure BatchEnv where
  perSong : Song → Env
  albumId : Song → Option String
  songsFromAlbums : List String → List Song

/-- Lines 247-252: `return_obj[song.url] = song` over a Python dict —
first occurrence fixes the position, the last song with that URL wins. -/
def dictInsertSong (d : List (String × Song)) (k : String) (v : Song) :
    List (String × Song) :=
  if (d.lookup k).isSome then
    d.map (fun kv => if kv.1 = k then (kv.1, v) else kv)
  else d ++ [(k, v)]

/-- Lines 247-252: de-duplicate the expanded song list by URL. -/
def dedupByUrl (songs : List Song) : List Song :=
  (songs.foldl (fun d s => dictInsertSong d s.url s) []).map (fun kv => kv.2)

/-- Lines 229-258: the track list that actually enters the scheduler —
the input batch after optional album expansion (`fetch_albums`) and
optional archive pre-filtering (`song.url not in self.url_archive`). -/
def scheduledSongs (settings : Settings) (benv : BatchEnv)
    (archive0 : List String) (songs0 : List Song) : List Song :=
  let songs1 :=
    if settings.fetchAlbums then
      dedupByUrl (songs0
        ++ benv.songsFromAlbums (songs0.filterMap benv.albumId).dedup)
    else songs0
  if settings.archiveEnabled then
    songs1.filter (fun s => !(archive0.contains s.url))
  else songs1

/-- Lines 262-266: run one pipeline per scheduled song and collect the
outcomes in input order (`asyncio.gather` returns its results in the order
the tasks were passed, regardless of completion order).  State threads
through; an exception escaping a pipeline propagates out of
`run_until_complete`, aborting the batch. -/
def runBatch (settings : Settings) (benv : BatchEnv) :
    DlState → List Song →
      Except PipelineError (List (Song × Option String)) × DlState × List Effect
  | st, [] => (Except.ok [], st, [])
  | st, s :: rest =>
      match search_and_download settings (benv.perSong s) st s with
      | (Except.error e, st1, effs) => (Except.error e, st1, effs)
      | (Except.ok out, st1, effs) =>
          match runBatch settings benv st1 rest with
          | (Except.error e, st2, effs2) => (Except.error e, st2, effs ++ effs2)
          | (Except.ok outs, st2, effs2) =>
              (Except.ok (out :: outs), st2, effs ++ effs2)

/-- `Downloader.download_multiple_songs` (lines 216-304): expand albums,
pre-filter against the archive, run all pipelines, then — once, after every
pipeline has finished — add each successful outcome's URL to the archive and
save it (lines 273-284), and finally write the optional m3u playlist and
results file.  Returns (outcomes, state, saved archive, effect trace). -/
def download_multiple_songs (settings : Settings) (benv : BatchEnv)
    (archive0 : List String) (st : DlState) (songs0 : List Song) :
    Except PipelineError (List (Song × Option String))
      × DlState × List String × List Effect :=
  match runBatch settings benv st (scheduledSongs settings benv archive0 songs0) with
  | (Except.error e, st1, effs) => (Except.error e, st1, archive0, effs)
  | (Except.ok results, st1, effs) =>
      let archive1 :=
        if settings.archiveEnabled then
          results.foldl
            (fun a r => if r.2.isSome then archiveAdd a r.1.url else a) archive0
        else archive0
      let effs1 :=
        if settings.archiveEnabled then effs ++ [Effect.archiveSave] else effs
      let effs2 :=
        match settings.m3u with
        | some p => effs1 ++ [Effect.fsWrite p]
        | none => effs1
      let effs3 :=
        match settings.saveFile with
        | some p => effs2 ++ [Effect.fsWrite p]
        | none => effs2
      (Except.ok results, st1, archive1, effs3)

/-! ## The Concurrency Coordinator (`pool_download`, lines 306-329)

`Downloader.__init__` creates `asyncio.Semaphore(self.settings["threads"])`
(line 143) and a `ThreadPoolExecutor` with the same `max_workers`
(lines 146-148).  Each `pool_download` task acquires the semaphore, runs the
blocking `search_and_download` on the executor, and releases on exit of the
`async with` block.  We model each task's admission state and the semaphore
discipline as a labelled transition system: a waiting task may start only
while fewer than `n` tasks are running, and a running task may finish at any
time, in any order. -/

/-- The admission state of one `pool_download` task: not yet admitted by the
semaphore, admitted and executing its blocking work, or finished (semaphore
released). -/
inductive TaskPhase where
  | waiting
  | running
  | done
deriving DecidableEq, Repr

/-- Whether a task currently holds a semaphore slot. -/
def TaskPhase.isRunning : TaskPhase → Bool
  | .running => true
  | _ => false

/-- The number of simultaneously executing pipelines. -/
def runningCount (ts : List TaskPhase) : Nat :=
  ts.countP TaskPhase.isRunning

/-- The semaphore capacity used by `pool_download`: `Downloader.__init__`
sizes both `asyncio.Semaphore` and the `ThreadPoolExecutor` to
`self.settings["threads"]` (lines 142-148). -/
def semCapacity (settings : Settings) : Nat :=
  settings.threads

/-- One scheduler transition of the pool: `acquire` admits a waiting task
only while the semaphore has a free slot (fewer than `n` running); `finish`
lets any running task complete and release its slot.  No other transition
touches a task's phase. -/
inductive PoolStep (n : Nat) : List TaskPhase → List TaskPhase → Prop
  | acquire (pre post : List TaskPhase) :
      runningCount (pre ++ TaskPhase.waiting :: post) < n →
      PoolStep n (pre ++ TaskPhase.waiting :: post)
        (pre ++ TaskPhase.running :: post)
  | finish (pre post : List TaskPhase) :
      PoolStep n (pre ++ TaskPhase.running :: post)
        (pre ++ TaskPhase.done :: post)

/-- Reachability under any interleaving of pool transitions. -/
inductive PoolReachable (n : Nat) : List TaskPhase → List TaskPhase → Prop
  | refl (s : List TaskPhase) : PoolReachable n s s
  | step {s t u : List TaskPhase} :
      PoolReachable n s t → PoolStep n t u → PoolReachable n s u

/-- The initial pool state for a batch of `k` songs: every task waiting at
the semaphore. -/
def initialPool (k : Nat) : List TaskPhase :=
  List.replicate k TaskPhase.waiting

/-! ## Theorems -/

theorem runningCount_initialPool (k : Nat) : runningCount (initialPool k) = 0 := by
  induction k with
  | zero => rfl
  | succ m ih =>
      simpa [initialPool, runningCount, List.replicate_succ, List.countP_cons,
        TaskPhase.isRunning] using ih

/-- C2: for every configured concurrency limit (`settings.threads`, the size
of both the semaphore and the worker pool), every pool state reachable from
the all-waiting initial state by any interleaving of admissions and releases
has at most that many simultaneously running pipelines. -/
theorem c2_bounded_concurrency (settings : Settings) (k : Nat)
    (s : List TaskPhase)
    (h : PoolReachable (semCapacity settings) (initialPool k) s) :
    runningCount s ≤ semCapacity settings := by
  induction h with
  | refl => simp [runningCount_initialPool]
  | step hr hstep ih =>
      cases hstep with
      | acquire pre post hlt =>
          have h1 : runningCount (pre ++ TaskPhase.waiting :: post)
              = List.countP TaskPhase.isRunning pre
                + List.countP TaskPhase.isRunning post := by
            simp [runningCount, List.countP_append, List.countP_cons,
              TaskPhase.isRunning] <;> omega
          have h2 : runningCount (pre ++ TaskPhase.running :: post)
              = List.countP TaskPhase.isRunning pre
                + List.countP TaskPhase.isRunning post + 1 := by
            simp [runningCount, List.countP_append, List.countP_cons,
              TaskPhase.isRunning] <;> omega
          rw [h1] at hlt
          rw [h2]
          omega
      | finish pre post =>
          have h1 : runningCount (pre ++ TaskPhase.running :: post)
              = List.countP TaskPhase.isRunning pre
                + List.countP TaskPhase.isRunning post + 1 := by
            simp [runningCount, List.countP_append, List.countP_cons,
              TaskPhase.isRunning] <;> omega
          have h2 : runningCount (pre ++ TaskPhase.done :: post)
              = List.countP TaskPhase.isRunning pre
                + List.countP TaskPhase.isRunning post := by
            simp [runningCount, List.countP_append, List.countP_cons,
              TaskPhase.isRunning] <;> omega
          rw [h1] at ih
          rw [h2]
          omega

theorem c2_bounded_concurrency_witness :
    runningCount [TaskPhase.running, TaskPhase.waiting]
      ≤ semCapacity ⟨Overwrite.overwrite, "mp3", 1, false, false, false,
          false, none, none, none⟩ := by
  refine c2_bounded_concurrency _ 2 _ ?_
  exact PoolReachable.step (PoolReachable.refl _)
    (PoolStep.acquire [] [TaskPhase.waiting] (by decide))

/-- C8: the source resolver consults the configured audio providers strictly
in configured order (the trace is the consecutive run of provider indices up
to and including the first that answers) and returns the first non-empty
URL; when every provider returns empty it raises `LookupError` (terminal for
this track), while the lyrics resolver under the same all-empty condition
returns `none` with no error. -/
theorem c8_ordered_fallback (dn : String) (answers : List (Option String))
    (start : Nat) :
    ((search dn answers start).2 =
      (match (answers.filterMap id).head? with
        | some u => Except.ok u
        | none => Except.error (PipelineError.lookupError
            ("No results found for song: " ++ dn))))
    ∧ (search dn answers start).1 =
        (List.range' start (queriedCount answers)).map Effect.audioQuery
    ∧ ((∀ a ∈ answers, a = none) → (search_lyrics answers start).2 = none) := by
  induction answers generalizing start with
  | nil => simp [search, search_lyrics, queriedCount]
  | cons a rest ih =>
      cases a with
      | some u => simp [search, search_lyrics, queriedCount, List.range']
      | none =>
          obtain ⟨h1, h2, h3⟩ := ih (start + 1)
          refine ⟨by simpa [search] using h1, ?_, ?_⟩
          · simp only [search, queriedCount, List.range', List.map_cons]
            exact congrArg (Effect.audioQuery start :: ·) h2
          · intro hall
            have : (search_lyrics rest (start + 1)).2 = none :=
              h3 (fun x hx => hall x (List.mem_cons_of_mem _ hx))
            simpa [search_lyrics] using this

/-- A concrete environment used to evaluate the model on explicit inputs. -/
def baseEnv : Env where
  hydrate := fun s => { s with name := some "Name" }
  fileName := fun _ => "out.mp3"
  restrictName := fun p => p
  abspath := fun p => p
  mtime := fun _ => 0
  removable := fun _ => true
  lyricsAnswers := []
  audioAnswers := []
  downloadMeta := Except.error "yt-dlp failed"
  tempFolder := "tmp"
  withSuffix := fun p _ => p
  convertSuccess := true
  convertDiag := none
  convertCreatesOutput := true
  reportPath := "errors/report.txt"
  sponsorChapters := 0
  sponsorFilesToDelete := []
  embedOk := true

theorem c8_ordered_fallback_witness :
    ((search "s" [none, some "u"] 0).2 = Except.ok "u"
      ∧ (search "s" [none, some "u"] 0).1 =
          [Effect.audioQuery 0, Effect.audioQuery 1])
    ∧ ((search "s" [none, none] 0).2 =
        Except.error (PipelineError.lookupError "No results found for song: s")
      ∧ (search_lyrics [none, none] 0).2 = none) := by
  have h1 := c8_ordered_fallback "s" [none, some "u"] 0
  have h2 := c8_ordered_fallback "s" [none, none] 0
  exact ⟨⟨h1.1.trans rfl, h1.2.1.trans rfl⟩,
    ⟨h2.1.trans rfl, h2.2.2 (by decide)⟩⟩


theorem search_and_download_skip_eq (settings : Settings) (env : Env) (st : DlState)
    (song0 : Song)
    (hskip : settings.overwrite = Overwrite.skip)
    (hguard : st.fs.contains (outputFileOf settings env (hydrated env song0))
        = true
      ∨ dupPathsOf settings env st (hydrated env song0) ≠ []) :
    search_and_download settings env st song0 =
      (Except.ok (hydrated env song0, none), st,
        hydrateEffects song0 ++ [Effect.notifySkip]) := by
  simp only [search_and_download]
  rw [if_pos ⟨hguard, hskip⟩]

/-- C5 (amended): under overwrite policy `skip`, when the output file exists
or duplicates were found, the pipeline returns a no-path outcome, leaves the
state (filesystem, Duplicate Index, error list) untouched, performs no
filesystem write and no stream download, and its only possible network call
is the initial metadata hydration of a placeholder track — for a track whose
name is already resolved it performs no network call at all. -/
theorem c5_skip_no_side_effects (settings : Settings) (env : Env)
    (st : DlState) (song0 : Song)
    (hskip : settings.overwrite = Overwrite.skip)
    (hguard : st.fs.contains (outputFileOf settings env (hydrated env song0))
        = true
      ∨ dupPathsOf settings env st (hydrated env song0) ≠ []) :
    (search_and_download settings env st song0).1
        = Except.ok (hydrated env song0, none)
    ∧ (search_and_download settings env st song0).2.1 = st
    ∧ (∀ e ∈ (search_and_download settings env st song0).2.2,
        e.isFsWrite = false)
    ∧ (∀ e ∈ (search_and_download settings env st song0).2.2,
        e.isNetwork = true → e = Effect.hydrateFetch song0.url)
    ∧ (song0.name.isSome →
        ∀ e ∈ (search_and_download settings env st song0).2.2,
          e.isNetwork = false) := by
  have heq := search_and_download_skip_eq settings env st song0 hskip hguard
  rw [heq]
  refine ⟨rfl, rfl, ?_, ?_, ?_⟩
  · intro e he
    unfold hydrateEffects at he
    rcases List.mem_append.mp he with h | h
    · split at h
      · simp only [List.mem_singleton] at h
        subst h; rfl
      · simp at h
    · simp only [List.mem_singleton] at h
      subst h; rfl
  · intro e he hnet
    unfold hydrateEffects at he
    rcases List.mem_append.mp he with h | h
    · split at h
      · simp only [List.mem_singleton] at h
        subst h; rfl
      · simp at h
    · simp only [List.mem_singleton] at h
      subst h; simp [Effect.isNetwork] at hnet
  · intro hname e he
    unfold hydrateEffects at he
    have hn : song0.name.isNone = false := by
      cases hx : song0.name <;> simp_all
    rw [hn] at he
    simp only [Bool.false_and, if_neg Bool.false_ne_true, List.nil_append,
      List.mem_singleton] at he
    subst he; rfl

/-- A placeholder song: identity URL present, no name resolved yet. -/
def placeholderSong : Song :=
  { url := "u", name := none, artists := [], downloadUrl := none,
    lyrics := none }

/-- Settings with overwrite policy `skip`. -/
def skipSettings : Settings :=
  ⟨Overwrite.skip, "mp3", 1, false, false, false, false, none, none, none⟩

/-- A state in which the output file `out.mp3` already exists. -/
def existingOutSt : DlState := ⟨["out.mp3"], [], []⟩

/-- C5 counterexample: a placeholder track under policy `skip` whose output
file exists is skipped with a no-path outcome, yet the pipeline *does*
perform a network call first — the metadata hydration (`reinit_song`,
lines 397-398) runs before the skip check at line 432. -/
theorem c5_counterexample :
    skipSettings.overwrite = Overwrite.skip
    ∧ existingOutSt.fs.contains
        (outputFileOf skipSettings baseEnv (hydrated baseEnv placeholderSong))
        = true
    ∧ (search_and_download skipSettings baseEnv existingOutSt
        placeholderSong).1 = Except.ok (hydrated baseEnv placeholderSong, none)
    ∧ ∃ e ∈ (search_and_download skipSettings baseEnv existingOutSt
        placeholderSong).2.2, e.isNetwork = true := by
  refine ⟨rfl, rfl, rfl, Effect.hydrateFetch "u", ?_, rfl⟩
  show Effect.hydrateFetch "u" ∈
    (search_and_download skipSettings baseEnv existingOutSt placeholderSong).2.2
  refine List.mem_of_mem_head? ?_
  rfl

theorem c5_skip_no_side_effects_witness :
    ((search_and_download skipSettings baseEnv existingOutSt
        { placeholderSong with name := some "Name" }).1
      = Except.ok ({ placeholderSong with name := some "Name" }, none))
    ∧ (∀ e ∈ (search_and_download skipSettings baseEnv existingOutSt
        { placeholderSong with name := some "Name" }).2.2,
        e.isNetwork = false) := by
  have h := c5_skip_no_side_effects skipSettings baseEnv existingOutSt
    { placeholderSong with name := some "Name" } rfl (Or.inl rfl)
  exact ⟨h.1.trans rfl, h.2.2.2.2 rfl⟩

theorem hydrateEffects_mem (s : Song) :
    ∀ e ∈ hydrateEffects s, e = Effect.hydrateFetch s.url := by
  intro e he
  unfold hydrateEffects at he
  split at he
  · simpa using he
  · simp at he

theorem search_lyrics_trace_mem (answers : List (Option String)) (start : Nat) :
    ∀ e ∈ (search_lyrics answers start).1, ∃ i, e = Effect.lyricsQuery i := by
  induction answers generalizing start with
  | nil => simp [search_lyrics]
  | cons a rest ih =>
      cases a with
      | some l => simp [search_lyrics]
      | none =>
          intro e he
          simp only [search_lyrics, List.mem_cons] at he
          rcases he with h | h
          · exact ⟨start, h⟩
          · exact ih (start + 1) e h

theorem search_trace_mem (dn : String) (answers : List (Option String))
    (start : Nat) :
    ∀ e ∈ (search dn answers start).1, ∃ i, e = Effect.audioQuery i := by
  induction answers generalizing start with
  | nil => simp [search]
  | cons a rest ih =>
      cases a with
      | some u => simp [search]
      | none =>
          intro e he
          simp only [search, List.mem_cons] at he
          rcases he with h | h
          · exact ⟨start, h⟩
          · exact ih (start + 1) e h

theorem unlinkAllBestEffort_trace_mem (env : Env) (fs ps : List String) :
    ∀ e ∈ (unlinkAllBestEffort env fs ps).2, ∃ p, e = Effect.fsDelete p := by
  induction ps generalizing fs with
  | nil => simp [unlinkAllBestEffort]
  | cons p rest ih =>
      intro e he
      simp only [unlinkAllBestEffort, List.mem_append] at he
      rcases he with h | h
      · unfold unlinkBestEffort at h
        split at h
        · simpa using ⟨p, by simpa using h⟩
        · simp at h
      · exact ih _ e h

theorem unlinkAllBestEffort_deletes (env : Env) (ps : List String) :
    ∀ fs : List String, ∀ p ∈ ps, fs.contains p = true →
      env.removable p = true →
      Effect.fsDelete p ∈ (unlinkAllBestEffort env fs ps).2 := by
  induction ps with
  | nil => intro fs p hp _ _; cases hp
  | cons q rest ih =>
      intro fs p hp hc hr
      by_cases hpq : p = q
      · subst hpq
        have hm : p ∈ fs := List.elem_iff.mp hc
        simp [unlinkAllBestEffort, unlinkBestEffort, hc, hr, hm]
      · have hpr : p ∈ rest := by
          rcases List.mem_cons.mp hp with h | h
          · exact absurd h hpq
          · exact h
        simp only [unlinkAllBestEffort, List.mem_append]
        right
        unfold unlinkBestEffort
        split
        · refine ih (fs.erase q) p hpr ?_ hr
          have hm : p ∈ fs := List.elem_iff.mp hc
          exact List.elem_iff.mpr ((List.mem_erase_of_ne hpq).mpr hm)
        · exact ih fs p hpr hc hr

theorem maxByMtime_go (env : Env) (ps : List String) :
    ∀ q : String, ∃ m, ps.foldl
        (fun acc p =>
          match acc with
          | none => some p
          | some r => if env.mtime r < env.mtime p then some p else some r)
        (some q) = some m
      ∧ (m = q ∨ m ∈ ps) ∧ env.mtime q ≤ env.mtime m
      ∧ ∀ p ∈ ps, env.mtime p ≤ env.mtime m := by
  induction ps with
  | nil => intro q; exact ⟨q, rfl, Or.inl rfl, le_refl _, by simp⟩
  | cons p rest ih =>
      intro q
      by_cases hlt : env.mtime q < env.mtime p
      · obtain ⟨m, hm, hmem, hle, hall⟩ := ih p
        refine ⟨m, ?_, ?_, ?_, ?_⟩
        · simpa [hlt] using hm
        · rcases hmem with h | h
          · exact Or.inr (h ▸ List.mem_cons_self _ _)
          · exact Or.inr (List.mem_cons_of_mem _ h)
        · exact le_trans (le_of_lt hlt) hle
        · intro x hx
          rcases List.mem_cons.mp hx with h | h
          · exact h ▸ hle
          · exact hall x h
      · obtain ⟨m, hm, hmem, hle, hall⟩ := ih q
        refine ⟨m, ?_, hmem.imp (fun h => h) (fun h => List.mem_cons_of_mem _ h),
          hle, ?_⟩
        · simpa [hlt] using hm
        · intro x hx
          rcases List.mem_cons.mp hx with h | h
          · exact h ▸ le_trans (le_of_not_lt hlt) hle
          · exact hall x h

/-- The element Python `max(..., key=mtime)` picks is a duplicate of maximal
modification time. -/
theorem maxByMtime_spec (env : Env) (ps : List String) (m : String)
    (h : maxByMtime env ps = some m) :
    m ∈ ps ∧ ∀ p ∈ ps, env.mtime p ≤ env.mtime m := by
  cases ps with
  | nil => cases h
  | cons p rest =>
      obtain ⟨m', hm', hmem, hple, hall⟩ := maxByMtime_go env rest p
      unfold maxByMtime at h
      simp only [List.foldl_cons] at h
      rw [hm'] at h
      cases h
      refine ⟨?_, ?_⟩
      · rcases hmem with h | h
        · exact h ▸ List.mem_cons_self _ _
        · exact List.mem_cons_of_mem _ h
      · intro x hx
        rcases List.mem_cons.mp hx with h | h
        · exact h ▸ hple
        · exact hall x h

theorem maxByMtime_eq_none (env : Env) :
    maxByMtime env [] = none := rfl

theorem search_and_download_metadata_eq (settings : Settings) (env : Env)
    (st : DlState) (song0 : Song)
    (hmeta : settings.overwrite = Overwrite.metadata)
    (hguard : st.fs.contains (outputFileOf settings env (hydrated env song0))
        = true
      ∨ dupPathsOf settings env st (hydrated env song0) ≠ []) :
    search_and_download settings env st song0 =
      metadataBranch settings env st.fs st.knownSongs st.errors
        (withLyrics env (hydrated env song0))
        (outputFileOf settings env (hydrated env song0))
        (dupPathsOf settings env st (hydrated env song0))
        (hydrateEffects song0 ++ []
          ++ (search_lyrics env.lyricsAnswers 0).1) := by
  have h1 : ¬((st.fs.contains (outputFileOf settings env (hydrated env song0))
        = true ∨ dupPathsOf settings env st (hydrated env song0) ≠ [])
      ∧ settings.overwrite = Overwrite.skip) := by
    simp [hmeta]
  have h2 : ¬((st.fs.contains (outputFileOf settings env (hydrated env song0))
        = true ∨ dupPathsOf settings env st (hydrated env song0) ≠ [])
      ∧ settings.overwrite = Overwrite.force) := by
    simp [hmeta]
  simp only [search_and_download]
  rw [if_neg h1, if_neg h2, if_pos ⟨hguard, hmeta⟩]

/-- C10: under overwrite policy `metadata`, when the output file already
exists but no duplicate paths were found, the pipeline re-embeds metadata
into the file at the output path in place — no download, no move, no
deletion, and no other state change — and exits successfully with that
output path. -/
theorem c10_metadata_no_dups_in_place (settings : Settings) (env : Env)
    (st : DlState) (song0 : Song)
    (hmeta : settings.overwrite = Overwrite.metadata)
    (hex : st.fs.contains (outputFileOf settings env (hydrated env song0))
      = true)
    (hdups : dupPathsOf settings env st (hydrated env song0) = [])
    (hembed : env.embedOk = true) :
    (search_and_download settings env st song0).1
      = Except.ok (withLyrics env (hydrated env song0),
          some (outputFileOf settings env (hydrated env song0)))
    ∧ (search_and_download settings env st song0).2.1
        = ⟨st.fs, st.knownSongs, st.errors⟩
    ∧ Effect.embed (outputFileOf settings env (hydrated env song0))
        ∈ (search_and_download settings env st song0).2.2
    ∧ (∀ e ∈ (search_and_download settings env st song0).2.2,
        e.isDownload = false ∧ e.isMove = false ∧ e.isDelete = false) := by
  have heq := search_and_download_metadata_eq settings env st song0 hmeta
    (Or.inl hex)
  rw [hdups] at heq
  have hres : metadataBranch settings env st.fs st.knownSongs st.errors
      (withLyrics env (hydrated env song0))
      (outputFileOf settings env (hydrated env song0)) []
      (hydrateEffects song0 ++ []
        ++ (search_lyrics env.lyricsAnswers 0).1) =
      (Except.ok (withLyrics env (hydrated env song0),
          some (outputFileOf settings env (hydrated env song0))),
        ⟨st.fs, st.knownSongs, st.errors⟩,
        hydrateEffects song0 ++ [] ++ (search_lyrics env.lyricsAnswers 0).1
          ++ [Effect.embed (outputFileOf settings env (hydrated env song0)),
              Effect.notifyComplete]) := by
    simp [metadataBranch, maxByMtime, hembed]
  rw [heq, hres]
  refine ⟨rfl, rfl, by simp, ?_⟩
  intro e he
  rcases List.mem_append.mp he with h | h
  · rcases List.mem_append.mp h with h' | h'
    · rcases List.mem_append.mp h' with h'' | h''
      · have := hydrateEffects_mem song0 e h''
        subst this
        exact ⟨rfl, rfl, rfl⟩
      · simp at h''
    · obtain ⟨i, rfl⟩ := search_lyrics_trace_mem env.lyricsAnswers 0 e h'
      exact ⟨rfl, rfl, rfl⟩
  · rcases List.mem_cons.mp h with h' | h'
    · subst h'
      exact ⟨rfl, rfl, rfl⟩
    · rcases List.mem_cons.mp h' with h'' | h''
      · subst h''
        exact ⟨rfl, rfl, rfl⟩
      · simp at h''

theorem dupPathsOf_contains (settings : Settings) (env : Env) (st : DlState)
    (s : Song) :
    ∀ p ∈ dupPathsOf settings env st s, st.fs.contains p = true := by
  intro p hp
  unfold dupPathsOf at hp
  have h := List.of_mem_filter hp
  simp only [Bool.and_eq_true] at h
  exact h.2

/-- C4 (amended): under overwrite policy `metadata`, when duplicate paths
were found for the track, the most-recently-modified duplicate is moved to
the canonical output path (assuming, as `create_file_name` guarantees, that
replacing the output file's suffix by `"." + format` leaves it unchanged),
every older duplicate whose removal the filesystem permits is deleted
(removal failures are logged and skipped, lines 496-504), metadata is
re-embedded into the file at the output path, no stream download occurs, and
the pipeline exits successfully with that output path. -/
theorem c4_metadata_moves_most_recent (settings : Settings) (env : Env)
    (st : DlState) (song0 : Song) (mrd : String)
    (hmeta : settings.overwrite = Overwrite.metadata)
    (hdups : dupPathsOf settings env st (hydrated env song0) ≠ [])
    (hmrd : maxByMtime env (dupPathsOf settings env st (hydrated env song0))
      = some mrd)
    (hembed : env.embedOk = true)
    (hcanon : env.withSuffix (outputFileOf settings env (hydrated env song0))
        ("." ++ settings.format)
      = outputFileOf settings env (hydrated env song0)) :
    (search_and_download settings env st song0).1
      = Except.ok (withLyrics env (hydrated env song0),
          some (outputFileOf settings env (hydrated env song0)))
    ∧ mrd ∈ dupPathsOf settings env st (hydrated env song0)
    ∧ (∀ p ∈ dupPathsOf settings env st (hydrated env song0),
        env.mtime p ≤ env.mtime mrd)
    ∧ Effect.fsMove mrd (outputFileOf settings env (hydrated env song0))
        ∈ (search_and_download settings env st song0).2.2
    ∧ (∀ p ∈ dupPathsOf settings env st (hydrated env song0), p ≠ mrd →
        env.removable p = true →
        Effect.fsDelete p ∈ (search_and_download settings env st song0).2.2)
    ∧ Effect.embed (outputFileOf settings env (hydrated env song0))
        ∈ (search_and_download settings env st song0).2.2
    ∧ (∀ e ∈ (search_and_download settings env st song0).2.2,
        e.isDownload = false) := by
  have heq := search_and_download_metadata_eq settings env st song0 hmeta
    (Or.inr hdups)
  have hspec := maxByMtime_spec env _ mrd hmrd
  have hres : metadataBranch settings env st.fs st.knownSongs st.errors
      (withLyrics env (hydrated env song0))
      (outputFileOf settings env (hydrated env song0))
      (dupPathsOf settings env st (hydrated env song0))
      (hydrateEffects song0 ++ []
        ++ (search_lyrics env.lyricsAnswers 0).1) =
      (Except.ok (withLyrics env (hydrated env song0),
          some (outputFileOf settings env (hydrated env song0))),
        ⟨moveReplace (unlinkAllBestEffort env st.fs
            ((dupPathsOf settings env st (hydrated env song0)).filter
              (fun p => p ≠ mrd))).1 mrd
            (outputFileOf settings env (hydrated env song0)),
          st.knownSongs, st.errors⟩,
        (hydrateEffects song0 ++ []
            ++ (search_lyrics env.lyricsAnswers 0).1)
          ++ (unlinkAllBestEffort env st.fs
              ((dupPathsOf settings env st (hydrated env song0)).filter
                (fun p => p ≠ mrd))).2
          ++ [Effect.fsMove mrd
              (outputFileOf settings env (hydrated env song0))]
          ++ [Effect.embed (outputFileOf settings env (hydrated env song0)),
              Effect.notifyComplete]) := by
    simp only [metadataBranch]
    rw [hmrd]
    simp [hembed, hcanon]
  rw [heq, hres]
  refine ⟨rfl, hspec.1, hspec.2, by simp, ?_, by simp, ?_⟩
  · intro p hp hne hrem
    have hc := dupPathsOf_contains settings env st (hydrated env song0) p hp
    have hmem : p ∈ (dupPathsOf settings env st (hydrated env song0)).filter
        (fun p => p ≠ mrd) := by
      refine List.mem_filter.mpr ⟨hp, ?_⟩
      simp [hne]
    have hd := unlinkAllBestEffort_deletes env _ st.fs p hmem hc hrem
    simp only [List.mem_append]
    left; left; right
    exact hd
  · intro e he
    simp only [List.mem_append] at he
    rcases he with ((((h | h) | h) | h) | h) | h
    · have := hydrateEffects_mem song0 e h
      subst this; rfl
    · simp at h
    · obtain ⟨i, rfl⟩ := search_lyrics_trace_mem env.lyricsAnswers 0 e h
      rfl
    · obtain ⟨p, rfl⟩ := unlinkAllBestEffort_trace_mem env st.fs _ e h
      rfl
    · rcases List.mem_singleton.mp h with h'
      subst h'; rfl
    · rcases List.mem_cons.mp h with h' | h'
      · subst h'; rfl
      · rcases List.mem_cons.mp h' with h'' | h''
        · subst h''; rfl
        · simp at h''

/-- Settings with overwrite policy `metadata`. -/
def metaSettings : Settings :=
  ⟨Overwrite.metadata, "mp3", 1, false, false, false, false, none, none, none⟩

/-- A fully hydrated song (no placeholder hydration needed). -/
def namedSong : Song :=
  { url := "u", name := some "Name", artists := [], downloadUrl := none,
    lyrics := none }

theorem c10_metadata_no_dups_in_place_witness :
    (search_and_download metaSettings baseEnv existingOutSt namedSong).1
      = Except.ok (namedSong, some "out.mp3")
    ∧ Effect.embed "out.mp3"
        ∈ (search_and_download metaSettings baseEnv existingOutSt
            namedSong).2.2 := by
  have h := c10_metadata_no_dups_in_place metaSettings baseEnv existingOutSt
    namedSong rfl rfl rfl rfl
  exact ⟨h.1.trans rfl, h.2.2.1⟩

/-- An environment in which `dup2.mp3` is the most recently modified file. -/
def dupEnv : Env :=
  { baseEnv with mtime := fun p => if p = "dup2.mp3" then 2 else 1 }

/-- A state with two known duplicates of song `u` on disk. -/
def dupSt : DlState :=
  ⟨["dup1.mp3", "dup2.mp3"], [("u", ["dup1.mp3", "dup2.mp3"])], []⟩

theorem c4_metadata_moves_most_recent_witness :
    (search_and_download metaSettings dupEnv dupSt namedSong).1
      = Except.ok (namedSong, some "out.mp3")
    ∧ Effect.fsMove "dup2.mp3" "out.mp3"
        ∈ (search_and_download metaSettings dupEnv dupSt namedSong).2.2
    ∧ Effect.fsDelete "dup1.mp3"
        ∈ (search_and_download metaSettings dupEnv dupSt namedSong).2.2
    ∧ Effect.embed "out.mp3"
        ∈ (search_and_download metaSettings dupEnv dupSt namedSong).2.2 := by
  have h := c4_metadata_moves_most_recent metaSettings dupEnv dupSt namedSong
    "dup2.mp3" rfl (by decide) (by decide) rfl rfl
  exact ⟨h.1.trans rfl, h.2.2.2.1,
    h.2.2.2.2.1 "dup1.mp3" (by decide) (by decide) rfl, h.2.2.2.2.2.1⟩

/-- C4 counterexample: with policy `metadata`, when the output file exists
but no duplicate paths were found — a situation the claim's trigger
("output file exists or duplicate paths were found") includes — the
pipeline exits returning the output path without moving or deleting any
file, so the claimed relocation of the most-recently-modified duplicate
does not happen. -/
theorem c4_counterexample :
    metaSettings.overwrite = Overwrite.metadata
    ∧ existingOutSt.fs.contains
        (outputFileOf metaSettings baseEnv (hydrated baseEnv namedSong))
        = true
    ∧ dupPathsOf metaSettings baseEnv existingOutSt
        (hydrated baseEnv namedSong) = []
    ∧ (search_and_download metaSettings baseEnv existingOutSt namedSong).1
        = Except.ok (namedSong, some "out.mp3")
    ∧ (∀ e ∈ (search_and_download metaSettings baseEnv existingOutSt
        namedSong).2.2, e.isMove = false ∧ e.isDelete = false) := by
  refine ⟨rfl, rfl, rfl, rfl, ?_⟩
  decide

theorem withLyrics_url (env : Env) (s : Song) :
    (withLyrics env s).url = s.url := by
  unfold withLyrics
  split <;> rfl

theorem withLyrics_downloadUrl (env : Env) (s : Song) :
    (withLyrics env s).downloadUrl = s.downloadUrl := by
  unfold withLyrics
  split <;> rfl

theorem search_all_none (dn : String) (answers : List (Option String))
    (start : Nat) (hall : ∀ a ∈ answers, a = none) :
    (search dn answers start).2 = Except.error (PipelineError.lookupError
      ("No results found for song: " ++ dn)) := by
  induction answers generalizing start with
  | nil => rfl
  | cons a rest ih =>
      cases a with
      | some u => exact absurd (hall (some u) (List.mem_cons_self _ _)) (by simp)
      | none =>
          have := ih (start + 1) (fun x hx => hall x (List.mem_cons_of_mem _ hx))
          simpa [search] using this

theorem search_and_download_noskip_nometa_eq (settings : Settings) (env : Env)
    (st : DlState) (song0 : Song)
    (hns : ¬((st.fs.contains (outputFileOf settings env (hydrated env song0))
        = true ∨ dupPathsOf settings env st (hydrated env song0) ≠ [])
      ∧ settings.overwrite = Overwrite.skip))
    (hnm : ¬((st.fs.contains (outputFileOf settings env (hydrated env song0))
        = true ∨ dupPathsOf settings env st (hydrated env song0) ≠ [])
      ∧ settings.overwrite = Overwrite.metadata)) :
    search_and_download settings env st song0 =
      fallThrough settings env
        (if (st.fs.contains (outputFileOf settings env (hydrated env song0))
            = true ∨ dupPathsOf settings env st (hydrated env song0) ≠ [])
          ∧ settings.overwrite = Overwrite.force then
          unlinkAllBestEffort env st.fs
            (dupPathsOf settings env st (hydrated env song0))
        else (st.fs, [])).1
        st.knownSongs st.errors (withLyrics env (hydrated env song0))
        (outputFileOf settings env (hydrated env song0))
        (hydrateEffects song0
          ++ (if (st.fs.contains
                (outputFileOf settings env (hydrated env song0)) = true
              ∨ dupPathsOf settings env st (hydrated env song0) ≠ [])
            ∧ settings.overwrite = Overwrite.force then
            unlinkAllBestEffort env st.fs
              (dupPathsOf settings env st (hydrated env song0))
          else (st.fs, [])).2
          ++ (search_lyrics env.lyricsAnswers 0).1) := by
  have hnm' : ¬(((if (st.fs.contains
          (outputFileOf settings env (hydrated env song0)) = true
        ∨ dupPathsOf settings env st (hydrated env song0) ≠ [])
      ∧ settings.overwrite = Overwrite.force then
      unlinkAllBestEffort env st.fs
        (dupPathsOf settings env st (hydrated env song0))
    else (st.fs, [])).1.contains
        (outputFileOf settings env (hydrated env song0)) = true
      ∨ dupPathsOf settings env st (hydrated env song0) ≠ [])
    ∧ settings.overwrite = Overwrite.metadata) := by
    rintro ⟨hg, hm⟩
    apply hnm
    refine ⟨?_, hm⟩
    rw [if_neg (by rintro ⟨-, hf⟩; rw [hm] at hf; cases hf)] at hg
    exact hg
  simp only [search_and_download]
  rw [if_neg hns, if_neg hnm']

theorem tryBody_search_error (settings : Settings) (env : Env)
    (fs0 : List String) (ks : List (String × List String)) (song : Song)
    (outputFile : String)
    (hurl : song.downloadUrl = none)
    (hall : ∀ a ∈ env.audioAnswers, a = none) :
    tryBody settings env fs0 ks song outputFile =
      (Except.error (song, PipelineError.lookupError
          ("No results found for song: " ++ song.displayName)),
        fs0, ks, (search song.displayName env.audioAnswers 0).1) := by
  have h := search_all_none song.displayName env.audioAnswers 0 hall
  simp only [tryBody, acquiredUrl, hurl]
  rw [h]

theorem fallThrough_lookup_error (settings : Settings) (env : Env)
    (fs1 : List String) (ks : List (String × List String))
    (errors : List String) (song1 : Song) (outputFile : String)
    (effs1 : List Effect)
    (hurl : song1.downloadUrl = none)
    (hall : ∀ a ∈ env.audioAnswers, a = none) :
    fallThrough settings env fs1 ks errors song1 outputFile effs1 =
      (Except.ok (song1, none),
        ⟨fs1, ks, errors ++ [errorRecord song1.url (PipelineError.lookupError
          ("No results found for song: " ++ song1.displayName))]⟩,
        effs1 ++ [Effect.mkdirParent outputFile]
          ++ (search song1.displayName env.audioAnswers 0).1
          ++ [Effect.notifyError]) := by
  unfold fallThrough
  rw [tryBody_search_error settings env fs1 ks song1 outputFile hurl hall]

/-- C6: for a track that reaches source resolution (not skipped and not in
the metadata branch) with no pre-resolved source URL, when every configured
audio provider returns an empty result, the outcome has no path and exactly
one Error Record — whose leading segment is the track's identity URL — is
appended to the shared error list. -/
theorem c6_all_providers_empty (settings : Settings) (env : Env)
    (st : DlState) (song0 : Song)
    (hns : ¬((st.fs.contains (outputFileOf settings env (hydrated env song0))
        = true ∨ dupPathsOf settings env st (hydrated env song0) ≠ [])
      ∧ settings.overwrite = Overwrite.skip))
    (hnm : ¬((st.fs.contains (outputFileOf settings env (hydrated env song0))
        = true ∨ dupPathsOf settings env st (hydrated env song0) ≠ [])
      ∧ settings.overwrite = Overwrite.metadata))
    (hurl : (hydrated env song0).downloadUrl = none)
    (hall : ∀ a ∈ env.audioAnswers, a = none) :
    (search_and_download settings env st song0).1
      = Except.ok (withLyrics env (hydrated env song0), none)
    ∧ (search_and_download settings env st song0).2.1.errors
        = st.errors ++ [errorRecord (hydrated env song0).url
            (PipelineError.lookupError ("No results found for song: "
              ++ (withLyrics env (hydrated env song0)).displayName))]
    ∧ ∃ tail, errorRecord (hydrated env song0).url
        (PipelineError.lookupError ("No results found for song: "
          ++ (withLyrics env (hydrated env song0)).displayName))
        = (hydrated env song0).url ++ tail := by
  have heq := search_and_download_noskip_nometa_eq settings env st song0
    hns hnm
  have hurl1 : (withLyrics env (hydrated env song0)).downloadUrl = none := by
    rw [withLyrics_downloadUrl]; exact hurl
  rw [heq, fallThrough_lookup_error settings env _ st.knownSongs st.errors
    _ _ _ hurl1 hall]
  refine ⟨rfl, ?_, ⟨_, rfl⟩⟩
  simp [withLyrics_url]

/-- Settings with the default overwrite policy. -/
def ovSettings : Settings :=
  ⟨Overwrite.overwrite, "mp3", 1, false, false, false, false, none, none,
    none⟩

/-- An environment whose single audio provider finds nothing. -/
def noAudioEnv : Env :=
  { baseEnv with audioAnswers := [none] }

/-- The empty starting state. -/
def emptySt : DlState := ⟨[], [], []⟩

theorem c6_all_providers_empty_witness :
    (search_and_download ovSettings noAudioEnv emptySt namedSong).1
      = Except.ok (namedSong, none)
    ∧ (search_and_download ovSettings noAudioEnv emptySt namedSong).2.1.errors
      = ["u - LookupError: No results found for song:  - Name"] := by
  have h := c6_all_providers_empty ovSettings noAudioEnv emptySt namedSong
    (by decide) (by decide) rfl (by decide)
  exact ⟨h.1.trans rfl, h.2.1.trans rfl⟩

theorem append_ends_with {s t : String} (x : String) (h : ∃ a, s = a ++ t) :
    ∃ a, x ++ s = a ++ t := by
  obtain ⟨a, ha⟩ := h
  exact ⟨x ++ a, by rw [ha, String.append_assoc]⟩

theorem tryBody_reaches_convert (settings : Settings) (env : Env)
    (fs0 : List String) (ks : List (String × List String)) (song : Song)
    (outputFile dlu : String) (info : DownloadInfo)
    (hacq : (acquiredUrl env song).2 = Except.ok dlu)
    (hinfo : env.downloadMeta = Except.ok info) :
    tryBody settings env fs0 ks song outputFile =
      afterConvert settings env (fsAfterConvert env info fs0 outputFile)
        ks song outputFile (tempFileOf env info) dlu
        ((acquiredUrl env song).1
          ++ [Effect.download dlu, Effect.notifyDownloadComplete]) := by
  simp only [tryBody]
  rw [hacq, hinfo]

theorem contains_add (fs : List String) (p : String) :
    (if fs.contains p then fs else fs ++ [p]).contains p = true := by
  by_cases h : fs.contains p = true
  · rw [if_pos h]; exact h
  · rw [if_neg h]
    exact List.elem_iff.mpr (List.mem_append_right _ (List.mem_singleton.mpr rfl))

theorem contains_append_left (fs ext : List String) (p : String)
    (h : fs.contains p = true) : (fs ++ ext).contains p = true :=
  List.elem_iff.mpr (List.mem_append_left _ (List.elem_iff.mp h))

theorem contains_erase_of_ne (fs : List String) (p q : String) (hne : p ≠ q)
    (h : fs.contains p = true) : (fs.erase q).contains p = true :=
  List.elem_iff.mpr ((List.mem_erase_of_ne hne).mpr (List.elem_iff.mp h))

theorem successTail_trace (settings : Settings) (env : Env)
    (fs3 : List String) (ks : List (String × List String)) (song : Song)
    (outputFile dlu : String) (effs : List Effect) :
    ∃ rest, (successTail settings env fs3 ks song outputFile dlu
      effs).2.2.2 = effs ++ rest := by
  simp only [successTail]
  split
  · exact ⟨_, List.append_assoc effs _ _⟩
  · split
    · exact ⟨_, by rw [List.append_assoc, List.append_assoc]⟩
    · exact ⟨_, List.append_assoc effs _ _⟩

theorem ffmpegCheck_trace (settings : Settings) (env : Env)
    (fs3 : List String) (ks : List (String × List String)) (song : Song)
    (outputFile dlu : String) (effs : List Effect) :
    ∃ rest, (ffmpegCheck settings env fs3 ks song outputFile dlu
      effs).2.2.2 = effs ++ rest := by
  simp only [ffmpegCheck]
  split
  · repeat' split
    all_goals
      first
        | exact ⟨_, rfl⟩
        | exact ⟨_, List.append_assoc effs _ _⟩
        | exact ⟨_, by rw [List.append_assoc, List.append_assoc]⟩
  · exact successTail_trace settings env fs3 ks song outputFile dlu effs

theorem afterConvert_temp_delete (settings : Settings) (env : Env)
    (fs2 : List String) (ks : List (String × List String)) (song : Song)
    (outputFile tempFile dlu : String) (effs : List Effect)
    (htmem : fs2.contains tempFile = true)
    (hrt : env.removable tempFile = true) :
    ∃ rest, (afterConvert settings env fs2 ks song outputFile tempFile dlu
      effs).2.2.2 = (effs ++ [Effect.fsDelete tempFile]) ++ rest := by
  unfold afterConvert
  rw [if_pos htmem, if_pos hrt]
  exact ffmpegCheck_trace settings env (fs2.erase tempFile) ks song
    outputFile dlu (effs ++ [Effect.fsDelete tempFile])

theorem ffmpegCheck_failure_eq (settings : Settings) (env : Env)
    (fs3 : List String) (ks : List (String × List String)) (song : Song)
    (outputFile dlu : String) (effs : List Effect)
    (hfail : env.convertSuccess = false)
    (hdiag : env.convertDiag.isSome = true)
    (homem : fs3.contains outputFile = true)
    (hro : env.removable outputFile = true) :
    ∃ fsF, ffmpegCheck settings env fs3 ks song outputFile dlu effs =
      (Except.error (song, PipelineError.ffmpegError
          ("Failed to convert " ++ song.displayName
            ++ (", you can find error here: " ++ env.reportPath))),
        fsF, ks,
        (effs ++ [Effect.fsWrite env.reportPath])
          ++ [Effect.fsDelete outputFile]) := by
  unfold ffmpegCheck
  rw [if_pos (show ((!env.convertSuccess) && env.convertDiag.isSome) = true by
    rw [hfail, hdiag]; rfl)]
  by_cases hrep : fs3.contains env.reportPath = true
  · rw [if_pos hrep, if_pos homem, if_pos hro]
    exact ⟨fs3.erase outputFile, rfl⟩
  · rw [if_neg hrep, if_pos (contains_append_left fs3 [env.reportPath]
      outputFile homem), if_pos hro]
    exact ⟨(fs3 ++ [env.reportPath]).erase outputFile, rfl⟩

theorem afterConvert_failure_eq (settings : Settings) (env : Env)
    (fs2 : List String) (ks : List (String × List String)) (song : Song)
    (outputFile tempFile dlu : String) (effs : List Effect)
    (htmem : fs2.contains tempFile = true)
    (hrt : env.removable tempFile = true)
    (hfail : env.convertSuccess = false)
    (hdiag : env.convertDiag.isSome = true)
    (homem : (fs2.erase tempFile).contains outputFile = true)
    (hro : env.removable outputFile = true) :
    ∃ fsF, afterConvert settings env fs2 ks song outputFile tempFile dlu
        effs =
      (Except.error (song, PipelineError.ffmpegError
          ("Failed to convert " ++ song.displayName
            ++ (", you can find error here: " ++ env.reportPath))),
        fsF, ks,
        (((effs ++ [Effect.fsDelete tempFile])
          ++ [Effect.fsWrite env.reportPath])
          ++ [Effect.fsDelete outputFile])) := by
  unfold afterConvert
  rw [if_pos htmem, if_pos hrt]
  exact ffmpegCheck_failure_eq settings env (fs2.erase tempFile) ks song
    outputFile dlu (effs ++ [Effect.fsDelete tempFile]) hfail hdiag homem hro

theorem afterConvert_temp_stuck_eq (settings : Settings) (env : Env)
    (fs2 : List String) (ks : List (String × List String)) (song : Song)
    (outputFile tempFile dlu : String) (effs : List Effect)
    (htmem : fs2.contains tempFile = true)
    (hrt : env.removable tempFile = false) :
    afterConvert settings env fs2 ks song outputFile tempFile dlu effs =
      (Except.error (song, PipelineError.downloaderError
          ("Could not remove temp file: " ++ tempFile
            ++ ", possible duplicate song")), fs2, ks, effs) := by
  unfold afterConvert
  rw [if_pos htmem, if_neg (by simp [hrt])]

theorem fallThrough_trace (settings : Settings) (env : Env)
    (fs1 : List String) (ks : List (String × List String))
    (errors : List String) (song1 : Song) (outputFile : String)
    (effs1 : List Effect) :
    ∃ rest,
      (fallThrough settings env fs1 ks errors song1 outputFile effs1).2.2 =
        (effs1 ++ [Effect.mkdirParent outputFile])
          ++ (tryBody settings env fs1 ks song1 outputFile).2.2.2 ++ rest := by
  rcases htb : tryBody settings env fs1 ks song1 outputFile with
    ⟨res, fsF, ksF, effsT⟩
  unfold fallThrough
  rw [htb]
  cases res with
  | ok v =>
      exact ⟨[], by simp⟩
  | error v =>
      exact ⟨[Effect.notifyError], by simp⟩

theorem fallThrough_error_eq (settings : Settings) (env : Env)
    (fs1 : List String) (ks : List (String × List String))
    (errors : List String) (song1 : Song) (outputFile : String)
    (effs1 : List Effect) (sE : Song) (e : PipelineError)
    (fsF : List String) (ksF : List (String × List String))
    (effsT : List Effect)
    (htb : tryBody settings env fs1 ks song1 outputFile =
      (Except.error (sE, e), fsF, ksF, effsT)) :
    fallThrough settings env fs1 ks errors song1 outputFile effs1 =
      (Except.ok (sE, none), ⟨fsF, ksF, errors ++ [errorRecord sE.url e]⟩,
        effs1 ++ [Effect.mkdirParent outputFile] ++ effsT
          ++ [Effect.notifyError]) := by
  unfold fallThrough
  rw [htb]

theorem fsAfterDownload_contains_temp (env : Env) (info : DownloadInfo)
    (fs0 : List String) :
    (fsAfterDownload env info fs0).contains (tempFileOf env info) = true :=
  contains_add fs0 (tempFileOf env info)

theorem fsAfterConvert_contains_temp (env : Env) (info : DownloadInfo)
    (fs0 : List String) (outputFile : String) :
    (fsAfterConvert env info fs0 outputFile).contains (tempFileOf env info)
      = true := by
  unfold fsAfterConvert
  split
  · split
    · exact fsAfterDownload_contains_temp env info fs0
    · exact contains_append_left _ _ _
        (fsAfterDownload_contains_temp env info fs0)
  · exact fsAfterDownload_contains_temp env info fs0

theorem fsAfterConvert_contains_out (env : Env) (info : DownloadInfo)
    (fs0 : List String) (outputFile : String)
    (hcc : env.convertCreatesOutput = true) :
    (fsAfterConvert env info fs0 outputFile).contains outputFile = true := by
  unfold fsAfterConvert
  rw [if_pos hcc]
  exact contains_add (fsAfterDownload env info fs0) outputFile

theorem c7_core (settings : Settings) (env : Env) (fs1 : List String)
    (ks : List (String × List String)) (errors : List String) (song1 : Song)
    (outputFile : String) (effs1 : List Effect) (dlu : String)
    (info : DownloadInfo)
    (hacq : (acquiredUrl env song1).2 = Except.ok dlu)
    (hinfo : env.downloadMeta = Except.ok info) :
    (env.removable (tempFileOf env info) = true →
      Effect.fsDelete (tempFileOf env info)
        ∈ (fallThrough settings env fs1 ks errors song1 outputFile
            effs1).2.2)
    ∧ (env.removable (tempFileOf env info) = true →
       env.convertSuccess = false → env.convertDiag.isSome = true →
       env.convertCreatesOutput = true →
       tempFileOf env info ≠ outputFile →
       env.removable outputFile = true →
        Effect.fsWrite env.reportPath
          ∈ (fallThrough settings env fs1 ks errors song1 outputFile
              effs1).2.2
        ∧ Effect.fsDelete outputFile
          ∈ (fallThrough settings env fs1 ks errors song1 outputFile
              effs1).2.2
        ∧ (fallThrough settings env fs1 ks errors song1 outputFile effs1).1
          = Except.ok (song1, none)
        ∧ (fallThrough settings env fs1 ks errors song1 outputFile
            effs1).2.1.errors
          = errors ++ [errorRecord song1.url (PipelineError.ffmpegError
              ("Failed to convert " ++ song1.displayName
                ++ (", you can find error here: " ++ env.reportPath)))]
        ∧ ∃ a, errorRecord song1.url (PipelineError.ffmpegError
            ("Failed to convert " ++ song1.displayName
              ++ (", you can find error here: " ++ env.reportPath)))
            = a ++ env.reportPath)
    ∧ (env.removable (tempFileOf env info) = false →
        (fallThrough settings env fs1 ks errors song1 outputFile effs1).1
          = Except.ok (song1, none)
        ∧ (fallThrough settings env fs1 ks errors song1 outputFile
            effs1).2.1.errors
          = errors ++ [errorRecord song1.url (PipelineError.downloaderError
              ("Could not remove temp file: " ++ tempFileOf env info
                ++ ", possible duplicate song"))]) := by
  have htb := tryBody_reaches_convert settings env fs1 ks song1 outputFile
    dlu info hacq hinfo
  have htmem := fsAfterConvert_contains_temp env info fs1 outputFile
  refine ⟨?_, ?_, ?_⟩
  · intro hrt
    obtain ⟨r1, htr1⟩ := afterConvert_temp_delete settings env
      (fsAfterConvert env info fs1 outputFile) ks song1 outputFile
      (tempFileOf env info) dlu
      ((acquiredUrl env song1).1
        ++ [Effect.download dlu, Effect.notifyDownloadComplete])
      htmem hrt
    obtain ⟨r2, htr2⟩ := fallThrough_trace settings env fs1 ks errors song1
      outputFile effs1
    rw [htb, htr1] at htr2
    rw [htr2]
    simp
  · intro hrt hfail hdiag hcc htne hro
    have homem : ((fsAfterConvert env info fs1 outputFile).erase
        (tempFileOf env info)).contains outputFile = true :=
      contains_erase_of_ne _ _ _ (Ne.symm htne)
        (fsAfterConvert_contains_out env info fs1 outputFile hcc)
    obtain ⟨fsF, hfeq⟩ := afterConvert_failure_eq settings env
      (fsAfterConvert env info fs1 outputFile) ks song1 outputFile
      (tempFileOf env info) dlu
      ((acquiredUrl env song1).1
        ++ [Effect.download dlu, Effect.notifyDownloadComplete])
      htmem hrt hfail hdiag homem hro
    have htb2 := htb.trans hfeq
    rw [fallThrough_error_eq settings env fs1 ks errors song1 outputFile
      effs1 song1 _ fsF ks _ htb2]
    refine ⟨by simp, by simp, rfl, rfl, ?_⟩
    have h0 : ∃ a, (", you can find error here: " ++ env.reportPath)
        = a ++ env.reportPath := ⟨", you can find error here: ", rfl⟩
    have h1 := append_ends_with ("Failed to convert " ++ song1.displayName) h0
    have h2 := append_ends_with ": " h1
    have h3 := append_ends_with "FFmpegError" h2
    have h4 := append_ends_with " - " h3
    have h5 := append_ends_with song1.url h4
    simpa [errorRecord, PipelineError.className, PipelineError.message,
      String.append_assoc] using h5
  · intro hrt
    have hceq := afterConvert_temp_stuck_eq settings env
      (fsAfterConvert env info fs1 outputFile) ks song1 outputFile
      (tempFileOf env info) dlu
      ((acquiredUrl env song1).1
        ++ [Effect.download dlu, Effect.notifyDownloadComplete])
      htmem hrt
    have htb2 := htb.trans hceq
    rw [fallThrough_error_eq settings env fs1 ks errors song1 outputFile
      effs1 song1 _ _ ks _ htb2]
    exact ⟨rfl, rfl⟩

/-- C7: for a track that reaches the transcode step (not skipped, not in
the metadata branch, source acquired, download succeeded), the temporary
input file is removed whether or not the transcode succeeded; when the
transcode fails (with diagnostic data, which the `convert` contract of spec
§6 supplies on failure), a diagnostic report file is written, the (possibly
partial) file at the output path is deleted, the pipeline yields a no-path
outcome and appends one terminal Error Record whose message ends with the
report's path; and a failure to remove the temporary file is itself a
terminal per-track error producing a no-path outcome. -/
theorem c7_transcode_cleanup (settings : Settings) (env : Env)
    (st : DlState) (song0 : Song) (dlu : String) (info : DownloadInfo)
    (hns : ¬((st.fs.contains (outputFileOf settings env (hydrated env song0))
        = true ∨ dupPathsOf settings env st (hydrated env song0) ≠ [])
      ∧ settings.overwrite = Overwrite.skip))
    (hnm : ¬((st.fs.contains (outputFileOf settings env (hydrated env song0))
        = true ∨ dupPathsOf settings env st (hydrated env song0) ≠ [])
      ∧ settings.overwrite = Overwrite.metadata))
    (hacq : (acquiredUrl env (withLyrics env (hydrated env song0))).2
      = Except.ok dlu)
    (hinfo : env.downloadMeta = Except.ok info) :
    (env.removable (tempFileOf env info) = true →
      Effect.fsDelete (tempFileOf env info)
        ∈ (search_and_download settings env st song0).2.2)
    ∧ (env.removable (tempFileOf env info) = true →
       env.convertSuccess = false → env.convertDiag.isSome = true →
       env.convertCreatesOutput = true →
       tempFileOf env info ≠ outputFileOf settings env (hydrated env song0) →
       env.removable (outputFileOf settings env (hydrated env song0))
         = true →
        Effect.fsWrite env.reportPath
          ∈ (search_and_download settings env st song0).2.2
        ∧ Effect.fsDelete (outputFileOf settings env (hydrated env song0))
          ∈ (search_and_download settings env st song0).2.2
        ∧ (search_and_download settings env st song0).1
          = Except.ok (withLyrics env (hydrated env song0), none)
        ∧ (search_and_download settings env st song0).2.1.errors
          = st.errors ++ [errorRecord
              (withLyrics env (hydrated env song0)).url
              (PipelineError.ffmpegError ("Failed to convert "
                ++ (withLyrics env (hydrated env song0)).displayName
                ++ (", you can find error here: " ++ env.reportPath)))]
        ∧ ∃ a, errorRecord (withLyrics env (hydrated env song0)).url
            (PipelineError.ffmpegError ("Failed to convert "
              ++ (withLyrics env (hydrated env song0)).displayName
              ++ (", you can find error here: " ++ env.reportPath)))
            = a ++ env.reportPath)
    ∧ (env.removable (tempFileOf env info) = false →
        (search_and_download settings env st song0).1
          = Except.ok (withLyrics env (hydrated env song0), none)
        ∧ (search_and_download settings env st song0).2.1.errors
          = st.errors ++ [errorRecord
              (withLyrics env (hydrated env song0)).url
              (PipelineError.downloaderError
                ("Could not remove temp file: " ++ tempFileOf env info
                  ++ ", possible duplicate song"))]) := by
  rw [search_and_download_noskip_nometa_eq settings env st song0 hns hnm]
  exact c7_core settings env _ st.knownSongs st.errors _ _ _ dlu info
    hacq hinfo

/-- An environment in which the pipeline reaches `convert` and the
conversion fails with diagnostic data. -/
def convFailEnv : Env :=
  { baseEnv with
      audioAnswers := [some "dl"]
      downloadMeta := Except.ok ⟨"vid", "webm", 128⟩
      convertSuccess := false
      convertDiag := some [("ffmpeg", "boom")] }

theorem c7_transcode_cleanup_witness :
    Effect.fsDelete "tmp/vid.webm"
      ∈ (search_and_download ovSettings convFailEnv emptySt namedSong).2.2
    ∧ Effect.fsWrite "errors/report.txt"
      ∈ (search_and_download ovSettings convFailEnv emptySt namedSong).2.2
    ∧ Effect.fsDelete "out.mp3"
      ∈ (search_and_download ovSettings convFailEnv emptySt namedSong).2.2
    ∧ (search_and_download ovSettings convFailEnv emptySt namedSong).1
      = Except.ok (namedSong, none)
    ∧ (search_and_download ovSettings convFailEnv emptySt
        namedSong).2.1.errors
      = [String.append "u - FFmpegError: Failed to convert  - Name, you can find error here: " "errors/report.txt"] := by
  have h := c7_transcode_cleanup ovSettings convFailEnv emptySt namedSong
    "dl" ⟨"vid", "webm", 128⟩ (by decide) (by decide) rfl rfl
  obtain ⟨h1, h2, -⟩ := h
  obtain ⟨hw, hd, hres, herr, -⟩ := h2 rfl rfl rfl rfl (by decide) rfl
  exact ⟨h1 rfl, hw, hd, hres.trans rfl, herr.trans rfl⟩

/-- An environment in which the pipeline runs to a fully successful
completion (source found, download ok, conversion ok, embedding ok). -/
def convOkEnv : Env :=
  { baseEnv with
      audioAnswers := [some "dl"]
      downloadMeta := Except.ok ⟨"vid", "webm", 128⟩ }

/-- C9 (code bug, line 681): after a fully successful pipeline run for a
track whose URL is not yet a key of `self.known_songs`, the Duplicate Index
is unchanged — `self.known_songs.get(song.url, []).append(output_file)`
appends to the fresh default list `dict.get` returned, not to the dict —
so the new path is *not* registered under the track's identity, contrary to
the code's own comment ("Add the song to the known songs") and the spec's
Finalize step. -/
theorem c9_known_songs_not_registered :
    (search_and_download ovSettings convOkEnv emptySt namedSong).1
      = Except.ok ({ namedSong with downloadUrl := some "dl" },
          some "out.mp3")
    ∧ (search_and_download ovSettings convOkEnv emptySt
        namedSong).2.1.knownSongs = []
    ∧ ((search_and_download ovSettings convOkEnv emptySt
        namedSong).2.1.knownSongs.lookup "u").getD [] = []
    ∧ knownSongsAppend [] "u" "out.mp3" = [] := by
  exact ⟨rfl, rfl, rfl, rfl⟩

/-- The song object carried by a try-block result: the returned song on
success, the song at the time of the raise on failure. -/
def trySong : TryResult → Song
  | (Except.ok (s2, _), _, _, _) => s2
  | (Except.error (sE, _), _, _, _) => sE

theorem successTail_url (settings : Settings) (env : Env) (fs3 : List String)
    (ks : List (String × List String)) (song : Song) (outputFile dlu : String)
    (effs : List Effect) :
    (trySong (successTail settings env fs3 ks song outputFile dlu effs)).url
      = song.url := by
  simp only [successTail]
  split
  · simp only [trySong]
    split <;> rfl
  · split
    · simp only [trySong]
      split <;> rfl
    · simp only [trySong]
      split <;> rfl

theorem ffmpegCheck_url (settings : Settings) (env : Env) (fs3 : List String)
    (ks : List (String × List String)) (song : Song) (outputFile dlu : String)
    (effs : List Effect) :
    (trySong (ffmpegCheck settings env fs3 ks song outputFile dlu effs)).url
      = song.url := by
  simp only [ffmpegCheck]
  split
  · repeat' split
    all_goals rfl
  · exact successTail_url settings env fs3 ks song outputFile dlu effs

theorem afterConvert_url (settings : Settings) (env : Env)
    (fs2 : List String) (ks : List (String × List String)) (song : Song)
    (outputFile tempFile dlu : String) (effs : List Effect) :
    (trySong (afterConvert settings env fs2 ks song outputFile tempFile dlu
      effs)).url = song.url := by
  simp only [afterConvert]
  split
  · split
    · exact ffmpegCheck_url settings env _ ks song outputFile dlu _
    · rfl
  · exact ffmpegCheck_url settings env _ ks song outputFile dlu _

theorem tryBody_url (settings : Settings) (env : Env) (fs0 : List String)
    (ks : List (String × List String)) (song : Song) (outputFile : String) :
    (trySong (tryBody settings env fs0 ks song outputFile)).url
      = song.url := by
  simp only [tryBody]
  split
  · rfl
  · split
    · rfl
    · exact afterConvert_url settings env _ ks song outputFile _ _ _

theorem fallThrough_ok_shape (settings : Settings) (env : Env)
    (fs1 : List String) (ks : List (String × List String))
    (errors : List String) (song1 : Song) (outputFile : String)
    (effs1 : List Effect) :
    ∃ out, (fallThrough settings env fs1 ks errors song1 outputFile
        effs1).1 = Except.ok out
      ∧ out.1.url = song1.url := by
  unfold fallThrough
  have htu := tryBody_url settings env fs1 ks song1 outputFile
  rcases htb : tryBody settings env fs1 ks song1 outputFile with
    ⟨res, fsF, ksF, effsT⟩
  rw [htb] at htu
  cases res with
  | ok v =>
      exact ⟨(v.1, some v.2), by simp, by simpa [trySong] using htu⟩
  | error v =>
      exact ⟨(v.1, none), by simp, by simpa [trySong] using htu⟩

theorem metadataBranch_ok_shape (settings : Settings) (env : Env)
    (fs1 : List String) (ks : List (String × List String))
    (errors : List String) (song1 : Song) (outputFile : String)
    (dups : List String) (effs1 : List Effect)
    (hembed : env.embedOk = true) :
    ∃ out, (metadataBranch settings env fs1 ks errors song1 outputFile dups
        effs1).1 = Except.ok out
      ∧ out.1.url = song1.url := by
  simp only [metadataBranch]
  split
  · rw [if_pos hembed]
    exact ⟨_, rfl, rfl⟩
  · rw [if_pos hembed]
    exact ⟨_, rfl, rfl⟩

theorem search_and_download_ok_url (settings : Settings) (env : Env)
    (st : DlState) (song0 : Song)
    (hembed : env.embedOk = true)
    (hh : ∀ x : Song, (env.hydrate x).url = x.url) :
    ∃ out, (search_and_download settings env st song0).1 = Except.ok out
      ∧ out.1.url = song0.url := by
  have hu : (hydrated env song0).url = song0.url := by
    unfold hydrated
    split
    · exact hh song0
    · rfl
  have hu1 : (withLyrics env (hydrated env song0)).url = song0.url := by
    rw [withLyrics_url]
    exact hu
  simp only [search_and_download]
  split
  · exact ⟨(hydrated env song0, none), rfl, hu⟩
  · split
    · split
      · rename_i hforce hmeta
        exact absurd (hforce.2.symm.trans hmeta.2) (by decide)
      · obtain ⟨out, h1, h2⟩ := fallThrough_ok_shape settings env
          (unlinkAllBestEffort env st.fs
            (dupPathsOf settings env st (hydrated env song0))).1
          st.knownSongs st.errors (withLyrics env (hydrated env song0))
          (outputFileOf settings env (hydrated env song0))
          (hydrateEffects song0
            ++ (unlinkAllBestEffort env st.fs
                (dupPathsOf settings env st (hydrated env song0))).2
            ++ (search_lyrics env.lyricsAnswers 0).1)
        exact ⟨out, h1, h2.trans hu1⟩
    · split
      · obtain ⟨out, h1, h2⟩ := metadataBranch_ok_shape settings env
          st.fs st.knownSongs st.errors (withLyrics env (hydrated env song0))
          (outputFileOf settings env (hydrated env song0))
          (dupPathsOf settings env st (hydrated env song0))
          (hydrateEffects song0 ++ []
            ++ (search_lyrics env.lyricsAnswers 0).1) hembed
        exact ⟨out, h1, h2.trans hu1⟩
      · obtain ⟨out, h1, h2⟩ := fallThrough_ok_shape settings env
          st.fs st.knownSongs st.errors (withLyrics env (hydrated env song0))
          (outputFileOf settings env (hydrated env song0))
          (hydrateEffects song0 ++ []
            ++ (search_lyrics env.lyricsAnswers 0).1)
        exact ⟨out, h1, h2.trans hu1⟩

theorem runBatch_ok (settings : Settings) (benv : BatchEnv)
    (songs : List Song) :
    ∀ st : DlState,
      (∀ s ∈ songs, (benv.perSong s).embedOk = true) →
      (∀ s ∈ songs, ∀ x : Song, ((benv.perSong s).hydrate x).url = x.url) →
      ∃ results, (runBatch settings benv st songs).1 = Except.ok results
        ∧ results.map (fun r => r.1.url) = songs.map Song.url := by
  induction songs with
  | nil => exact fun st _ _ => ⟨[], rfl, rfl⟩
  | cons s rest ih =>
      intro st hok hh
      obtain ⟨out, hout, hurl⟩ := search_and_download_ok_url settings
        (benv.perSong s) st s (hok s (List.mem_cons_self _ _))
        (hh s (List.mem_cons_self _ _))
      rcases hsd : search_and_download settings (benv.perSong s) st s with
        ⟨res, st1, effs⟩
      rw [hsd] at hout
      simp only at hout
      subst hout
      obtain ⟨results, hr1, hr2⟩ := ih st1
        (fun x hx => hok x (List.mem_cons_of_mem _ hx))
        (fun x hx => hh x (List.mem_cons_of_mem _ hx))
      rcases hrb : runBatch settings benv st1 rest with ⟨res2, st2, effs2⟩
      rw [hrb] at hr1
      simp only at hr1
      subst hr1
      refine ⟨out :: results, ?_, ?_⟩
      · simp only [runBatch]
        rw [hsd]
        dsimp only
        rw [hrb]
      · simp [hurl, hr2]

/-- C1 (amended): the batch driver returns exactly one Download Outcome per
*scheduled* track — the input list after optional album expansion and
archive pre-filtering — in the scheduled order, with the i-th outcome
carrying the i-th scheduled track's identity, regardless of per-pipeline
failure (hypotheses: embedding succeeds, so that no exception escapes the
un-`try`-guarded metadata branch, and hydration preserves the identity
URL).  When album fetching is disabled and no input track is in the
archive, the scheduled list is the input list itself, giving one outcome
per input track in input order. -/
theorem c1_outcomes_match_scheduled (settings : Settings) (benv : BatchEnv)
    (archive0 : List String) (st : DlState) (songs0 : List Song)
    (hok : ∀ s ∈ scheduledSongs settings benv archive0 songs0,
      (benv.perSong s).embedOk = true)
    (hh : ∀ s ∈ scheduledSongs settings benv archive0 songs0,
      ∀ x : Song, ((benv.perSong s).hydrate x).url = x.url) :
    ∃ results,
      (download_multiple_songs settings benv archive0 st songs0).1
        = Except.ok results
      ∧ results.length
        = (scheduledSongs settings benv archive0 songs0).length
      ∧ results.map (fun r => r.1.url)
        = (scheduledSongs settings benv archive0 songs0).map Song.url
      ∧ ((settings.fetchAlbums = false ∧ settings.archiveEnabled = false) →
          scheduledSongs settings benv archive0 songs0 = songs0) := by
  obtain ⟨results, hr1, hr2⟩ := runBatch_ok settings benv
    (scheduledSongs settings benv archive0 songs0) st hok hh
  rcases hrb : runBatch settings benv st
    (scheduledSongs settings benv archive0 songs0) with ⟨res, st1, effs⟩
  rw [hrb] at hr1
  simp only at hr1
  subst hr1
  refine ⟨results, ?_, ?_, hr2, ?_⟩
  · simp only [download_multiple_songs]
    rw [hrb]
  · have := congrArg List.length hr2
    simpa using this
  · rintro ⟨hfa, har⟩
    simp [scheduledSongs, hfa, har]

/-- A concrete batch environment: every pipeline runs against `convOkEnv`,
no album expansion data. -/
def batEnv : BatchEnv :=
  ⟨fun _ => convOkEnv, fun _ => none, fun _ => []⟩

/-- Settings with archiving enabled. -/
def archSettings : Settings :=
  ⟨Overwrite.overwrite, "mp3", 1, false, false, true, false, none, none,
    none⟩

/-- C1 counterexample: with archiving enabled and the only input track's URL
already in the archive, `download_multiple_songs` filters the track out
before scheduling (line 257) and returns an *empty* outcome list for a
one-track input batch — so the claim "exactly one outcome per input track"
fails as stated. -/
theorem c1_counterexample :
    (download_multiple_songs archSettings batEnv ["u"] emptySt
        [namedSong]).1 = Except.ok []
    ∧ ([namedSong] : List Song).length = 1
    ∧ archSettings.archiveEnabled = true := ⟨rfl, rfl, rfl⟩

theorem c1_outcomes_match_scheduled_witness :
    ∃ results,
      (download_multiple_songs ovSettings batEnv [] emptySt [namedSong]).1
        = Except.ok results
      ∧ results.length
        = (scheduledSongs ovSettings batEnv [] [namedSong]).length
      ∧ results.map (fun r => r.1.url)
        = (scheduledSongs ovSettings batEnv [] [namedSong]).map Song.url
      ∧ ((ovSettings.fetchAlbums = false ∧ ovSettings.archiveEnabled = false)
          → scheduledSongs ovSettings batEnv [] [namedSong] = [namedSong]) :=
  c1_outcomes_match_scheduled ovSettings batEnv [] emptySt [namedSong]
    (by decide) (fun _ _ _ => rfl)

/-- The ledger save (`Archive.save`, line 279). -/
def Effect.isSave : Effect → Bool
  | .archiveSave => true
  | _ => false

/-- No ledger save occurs anywhere in a trace. -/
def noSave (l : List Effect) : Prop := ∀ e ∈ l, e.isSave = false

theorem noSave_nil : noSave [] := by
  intro e he
  cases he

theorem noSave_append {l1 l2 : List Effect} (h1 : noSave l1)
    (h2 : noSave l2) : noSave (l1 ++ l2) := by
  intro e he
  rcases List.mem_append.mp he with h | h
  · exact h1 e h
  · exact h2 e h

theorem noSave_one (a : Effect) (ha : a.isSave = false) : noSave [a] := by
  intro e he
  rcases List.mem_singleton.mp he with h
  exact h ▸ ha

theorem noSave_two (a b : Effect) (ha : a.isSave = false)
    (hb : b.isSave = false) : noSave [a, b] := by
  intro e he
  rcases List.mem_cons.mp he with h | h
  · exact h ▸ ha
  · exact (List.mem_singleton.mp h) ▸ hb

theorem noSave_hydrateEffects (s : Song) : noSave (hydrateEffects s) := by
  intro e he
  rw [hydrateEffects_mem s e he]
  rfl

theorem noSave_searchTrace (dn : String) (answers : List (Option String))
    (start : Nat) : noSave (search dn answers start).1 := by
  intro e he
  obtain ⟨i, rfl⟩ := search_trace_mem dn answers start e he
  rfl

theorem noSave_lyricsTrace (answers : List (Option String)) (start : Nat) :
    noSave (search_lyrics answers start).1 := by
  intro e he
  obtain ⟨i, rfl⟩ := search_lyrics_trace_mem answers start e he
  rfl

theorem noSave_unlinkAllBestEffort (env : Env) (fs ps : List String) :
    noSave (unlinkAllBestEffort env fs ps).2 := by
  intro e he
  obtain ⟨p, rfl⟩ := unlinkAllBestEffort_trace_mem env fs ps e he
  rfl

theorem noSave_unlinkAllStrict (env : Env) (ps fs : List String) :
    noSave (unlinkAllStrict env fs ps).2.1 := by
  induction ps generalizing fs with
  | nil => exact noSave_nil
  | cons p rest ih =>
      simp only [unlinkAllStrict]
      split
      · intro e he
        rcases List.mem_cons.mp he with h | h
        · exact h ▸ rfl
        · exact ih (fs.erase p) e h
      · exact noSave_nil

theorem noSave_successTail (settings : Settings) (env : Env)
    (fs3 : List String) (ks : List (String × List String)) (song : Song)
    (outputFile dlu : String) (effs : List Effect) (h : noSave effs) :
    noSave (successTail settings env fs3 ks song outputFile dlu
      effs).2.2.2 := by
  have hsp : noSave ((if settings.sponsorBlock
      && decide (0 < env.sponsorChapters) then
      unlinkAllStrict env fs3 env.sponsorFilesToDelete
    else (fs3, [], none)).2.1) := by
    split
    · exact noSave_unlinkAllStrict env env.sponsorFilesToDelete fs3
    · exact noSave_nil
  have h4 : noSave (effs ++ [Effect.notifyConversionComplete]) :=
    noSave_append h (noSave_one _ rfl)
  simp only [successTail]
  split
  · exact noSave_append h4 hsp
  · split
    · exact noSave_append (noSave_append h4 hsp) (noSave_two _ _ rfl rfl)
    · exact noSave_append h4 hsp

theorem noSave_ffmpegCheck (settings : Settings) (env : Env)
    (fs3 : List String) (ks : List (String × List String)) (song : Song)
    (outputFile dlu : String) (effs : List Effect) (h : noSave effs) :
    noSave (ffmpegCheck settings env fs3 ks song outputFile dlu
      effs).2.2.2 := by
  have hw : noSave (effs ++ [Effect.fsWrite env.reportPath]) :=
    noSave_append h (noSave_one (Effect.fsWrite env.reportPath) rfl)
  simp only [ffmpegCheck]
  split
  · repeat' split
    all_goals
      first
        | exact noSave_append hw
            (noSave_one (Effect.fsDelete outputFile) rfl)
        | exact hw
  · exact noSave_successTail settings env fs3 ks song outputFile dlu effs h

theorem noSave_afterConvert (settings : Settings) (env : Env)
    (fs2 : List String) (ks : List (String × List String)) (song : Song)
    (outputFile tempFile dlu : String) (effs : List Effect)
    (h : noSave effs) :
    noSave (afterConvert settings env fs2 ks song outputFile tempFile dlu
      effs).2.2.2 := by
  simp only [afterConvert]
  split
  · split
    · exact noSave_ffmpegCheck settings env _ ks song outputFile dlu _
        (noSave_append h (noSave_one _ rfl))
    · exact h
  · exact noSave_ffmpegCheck settings env _ ks song outputFile dlu _ h

theorem noSave_acquiredUrl (env : Env) (s : Song) :
    noSave (acquiredUrl env s).1 := by
  unfold acquiredUrl
  split
  · exact noSave_nil
  · exact noSave_searchTrace _ _ _

theorem noSave_tryBody (settings : Settings) (env : Env) (fs0 : List String)
    (ks : List (String × List String)) (song : Song) (outputFile : String) :
    noSave (tryBody settings env fs0 ks song outputFile).2.2.2 := by
  simp only [tryBody]
  split
  · exact noSave_acquiredUrl env song
  · split
    · exact noSave_append (noSave_acquiredUrl env song) (noSave_one _ rfl)
    · exact noSave_afterConvert settings env _ ks song outputFile _ _ _
        (noSave_append (noSave_acquiredUrl env song)
          (noSave_two _ _ rfl rfl))

theorem noSave_metadataBranch (settings : Settings) (env : Env)
    (fs1 : List String) (ks : List (String × List String))
    (errors : List String) (song1 : Song) (outputFile : String)
    (dups : List String) (effs1 : List Effect) (h : noSave effs1) :
    noSave (metadataBranch settings env fs1 ks errors song1 outputFile dups
      effs1).2.2 := by
  simp only [metadataBranch]
  split
  · split
    · exact noSave_append h (noSave_two _ _ rfl rfl)
    · exact h
  · split
    · exact noSave_append
        (noSave_append (noSave_append h (noSave_unlinkAllBestEffort env _ _))
          (noSave_one _ rfl))
        (noSave_two _ _ rfl rfl)
    · exact noSave_append
        (noSave_append h (noSave_unlinkAllBestEffort env _ _))
        (noSave_one _ rfl)

theorem noSave_fallThrough (settings : Settings) (env : Env)
    (fs1 : List String) (ks : List (String × List String))
    (errors : List String) (song1 : Song) (outputFile : String)
    (effs1 : List Effect) (h : noSave effs1) :
    noSave (fallThrough settings env fs1 ks errors song1 outputFile
      effs1).2.2 := by
  have htb := noSave_tryBody settings env fs1 ks song1 outputFile
  unfold fallThrough
  rcases hr : tryBody settings env fs1 ks song1 outputFile with
    ⟨res, fsF, ksF, effsT⟩
  rw [hr] at htb
  cases res with
  | ok v =>
      rcases v with ⟨s2, out⟩
      exact noSave_append (noSave_append h (noSave_one _ rfl)) htb
  | error v =>
      rcases v with ⟨sE, e⟩
      exact noSave_append
        (noSave_append (noSave_append h (noSave_one _ rfl)) htb)
        (noSave_one _ rfl)

theorem noSave_search_and_download (settings : Settings) (env : Env)
    (st : DlState) (song0 : Song) :
    noSave (search_and_download settings env st song0).2.2 := by
  have hpre : ∀ l : List Effect, noSave l →
      noSave (hydrateEffects song0 ++ l
        ++ (search_lyrics env.lyricsAnswers 0).1) :=
    fun l hl => noSave_append
      (noSave_append (noSave_hydrateEffects song0) hl)
      (noSave_lyricsTrace env.lyricsAnswers 0)
  simp only [search_and_download]
  split
  · exact noSave_append (noSave_hydrateEffects song0) (noSave_one _ rfl)
  · split
    · split
      · exact noSave_metadataBranch settings env _ st.knownSongs st.errors
          _ _ _ _ (hpre _ (noSave_unlinkAllBestEffort env _ _))
      · exact noSave_fallThrough settings env _ st.knownSongs st.errors
          _ _ _ (hpre _ (noSave_unlinkAllBestEffort env _ _))
    · split
      · exact noSave_metadataBranch settings env _ st.knownSongs st.errors
          _ _ _ _ (hpre _ noSave_nil)
      · exact noSave_fallThrough settings env _ st.knownSongs st.errors
          _ _ _ (hpre _ noSave_nil)

theorem noSave_runBatch (settings : Settings) (benv : BatchEnv)
    (songs : List Song) :
    ∀ st : DlState, noSave (runBatch settings benv st songs).2.2 := by
  induction songs with
  | nil => exact fun st => noSave_nil
  | cons s rest ih =>
      intro st
      have hsd := noSave_search_and_download settings (benv.perSong s) st s
      simp only [runBatch]
      rcases hr : search_and_download settings (benv.perSong s) st s with
        ⟨res, st1, effs⟩
      rw [hr] at hsd
      cases res with
      | error e => exact hsd
      | ok out =>
          dsimp only
          have hrb := ih st1
          rcases hr2 : runBatch settings benv st1 rest with ⟨res2, st2, effs2⟩
          rw [hr2] at hrb
          cases res2 with
          | error e => exact noSave_append hsd hrb
          | ok outs => exact noSave_append hsd hrb

theorem archiveAdd_mem (a : List String) (u v : String) :
    v ∈ archiveAdd a u ↔ v ∈ a ∨ v = u := by
  unfold archiveAdd
  split
  · rename_i h
    constructor
    · exact Or.inl
    · rintro (hv | rfl)
      · exact hv
      · exact List.elem_iff.mp h
  · simp [List.mem_append]

theorem archiveFold_mem (results : List (Song × Option String)) :
    ∀ (a : List String) (v : String),
      (v ∈ results.foldl
        (fun a r => if r.2.isSome then archiveAdd a r.1.url else a) a
      ↔ v ∈ a ∨ ∃ r ∈ results, r.2.isSome ∧ r.1.url = v) := by
  induction results with
  | nil => simp
  | cons r rest ih =>
      intro a v
      simp only [List.foldl_cons]
      rw [ih]
      by_cases h : r.2.isSome = true
      · rw [if_pos h, archiveAdd_mem]
        constructor
        · rintro ((hv | hv) | ⟨r', hr', hs, hu⟩)
          · exact Or.inl hv
          · exact Or.inr ⟨r, List.mem_cons_self _ _, h, hv.symm⟩
          · exact Or.inr ⟨r', List.mem_cons_of_mem _ hr', hs, hu⟩
        · rintro (hv | ⟨r', hr', hs, hu⟩)
          · exact Or.inl (Or.inl hv)
          · rcases List.mem_cons.mp hr' with h1 | h1
            · subst h1
              exact Or.inl (Or.inr hu.symm)
            · exact Or.inr ⟨r', h1, hs, hu⟩
      · rw [if_neg h]
        constructor
        · rintro (hv | ⟨r', hr', hs, hu⟩)
          · exact Or.inl hv
          · exact Or.inr ⟨r', List.mem_cons_of_mem _ hr', hs, hu⟩
        · rintro (hv | ⟨r', hr', hs, hu⟩)
          · exact Or.inl hv
          · rcases List.mem_cons.mp hr' with h1 | h1
            · subst h1
              exact absurd hs h
            · exact Or.inr ⟨r', h1, hs, hu⟩

/-- C3: with archiving enabled, after a batch completes, the saved ledger
contains exactly the old ledger united with the identities of the successful
(path-bearing) outcomes; a failed identity not already in the old ledger and
not succeeding elsewhere in the batch is absent; and the effect trace shows
exactly one ledger save, placed after every per-pipeline effect (the batch
pipelines themselves never save), followed only by the optional playlist and
results-file writes. -/
theorem c3_ledger_batch_save (settings : Settings) (benv : BatchEnv)
    (archive0 : List String) (st : DlState) (songs0 : List Song)
    (results : List (Song × Option String))
    (harch : settings.archiveEnabled = true)
    (hok : (download_multiple_songs settings benv archive0 st songs0).1
      = Except.ok results) :
    (∀ u, (u ∈ (download_multiple_songs settings benv archive0 st
        songs0).2.2.1
      ↔ u ∈ archive0 ∨ ∃ r ∈ results, r.2.isSome ∧ r.1.url = u))
    ∧ (∀ r ∈ results, r.2 = none → r.1.url ∉ archive0 →
        (∀ r' ∈ results, r'.2.isSome → r'.1.url ≠ r.1.url) →
        r.1.url ∉ (download_multiple_songs settings benv archive0 st
          songs0).2.2.1)
    ∧ ∃ pre post,
        (download_multiple_songs settings benv archive0 st songs0).2.2.2
          = pre ++ Effect.archiveSave :: post
        ∧ noSave pre
        ∧ Effect.archiveSave ∉ post := by
  have hns := noSave_runBatch settings benv
    (scheduledSongs settings benv archive0 songs0) st
  rcases hrb : runBatch settings benv st
    (scheduledSongs settings benv archive0 songs0) with ⟨res, st1, effs⟩
  rw [hrb] at hns
  simp only [download_multiple_songs] at hok ⊢
  rw [hrb] at hok ⊢
  cases res with
  | error e => exact absurd hok (by simp)
  | ok results' =>
      dsimp only at hok ⊢
      have hres : results' = results := by simpa using hok
      subst hres
      rw [if_pos harch, if_pos harch]
      have hmain := fun u => archiveFold_mem results' archive0 u
      refine ⟨?_, ?_, ?_⟩
      · intro u
        exact hmain u
      · intro r hr hnone hnold hnosucc hmem
        rcases (hmain r.1.url).mp hmem with h | ⟨r', hr', hs, hu⟩
        · exact hnold h
        · exact hnosucc r' hr' hs hu
      · refine ⟨effs,
          (match settings.m3u with
            | some p => [Effect.fsWrite p]
            | none => []) ++
          (match settings.saveFile with
            | some p => [Effect.fsWrite p]
            | none => []), ?_, hns, ?_⟩
        · rcases settings.m3u with _ | p <;>
            rcases settings.saveFile with _ | q <;> simp
        · rcases settings.m3u with _ | p <;>
            rcases settings.saveFile with _ | q <;> simp

/-- A batch environment where track `u`'s pipeline succeeds and every other
track's pipeline fails to find a source. -/
def mixedBatEnv : BatchEnv :=
  ⟨fun s => if s.url = "u" then convOkEnv else noAudioEnv, fun _ => none,
    fun _ => []⟩

/-- A second track, distinct from `namedSong`. -/
def songV : Song :=
  { url := "v", name := some "V", artists := [], downloadUrl := none,
    lyrics := none }

theorem c3_ledger_batch_save_witness :
    ("u" ∈ (download_multiple_songs archSettings mixedBatEnv [] emptySt
        [namedSong, songV]).2.2.1)
    ∧ ("v" ∉ (download_multiple_songs archSettings mixedBatEnv [] emptySt
        [namedSong, songV]).2.2.1)
    ∧ ∃ pre post,
        (download_multiple_songs archSettings mixedBatEnv [] emptySt
          [namedSong, songV]).2.2.2 = pre ++ Effect.archiveSave :: post
        ∧ noSave pre
        ∧ Effect.archiveSave ∉ post := by
  have h := c3_ledger_batch_save archSettings mixedBatEnv [] emptySt
    [namedSong, songV]
    [({ namedSong with downloadUrl := some "dl" }, some "out.mp3"),
      (songV, none)] rfl rfl
  refine ⟨?_, ?_, h.2.2⟩
  · exact (h.1 "u").mpr (Or.inr
      ⟨({ namedSong with downloadUrl := some "dl" }, some "out.mp3"),
        List.mem_cons_self _ _, rfl, rfl⟩)
  · exact h.2.1 (songV, none) (by decide) rfl (by simp) (by decide)

end SpotDL
